import Mathlib

/-!
# `pulumi convert`: the conversion pipeline of `pkg/cmd/pulumi/convert.go`

A shallow embedding of `runConvert`, `runConvertPcl` and `newPluginHost`.

The Go functions are effectful: they call the operating system, the YAML loader,
the statically linked project generators, the plugin host and the dependency
installer.  Here every such collaborator is a field of `Env`: a function that
reads the current `World` (the process state and the transcript of every call
made so far) and yields the values the Go call returns.  The Go functions become
state-passing functions over `World`; each collaborator call appends one `Event`
(arguments and returned values) to the transcript, and a successful `os.Chdir`
updates the working directory.

Two things are taken for granted about the collaborators: they do not change the
working directory of the process, and they do not change its environment
variables.  The only call that moves the process is the `os.Chdir` of
`runConvert` itself.  Whatever else a collaborator does (files written by a
generator, plugins started by the host) shows in the answers of later calls,
which may depend on the whole transcript.

`path.Join`, `cmdutil.IsTruthy`, `strconv.Quote` and the rendering of
diagnostics are library functions; they enter as parameters.
-/

namespace Convert

/-! ## Errors and diagnostics -/

/-- Severity of one `hcl.Diagnostic`. -/
inductive DiagnosticSeverity where
  | DiagError
  | DiagWarning
  deriving DecidableEq, Repr

/-- One `hcl.Diagnostic`: a severity and a summary. -/
structure Diagnostic where
  severity : DiagnosticSeverity
  summary : String
  deriving DecidableEq, Repr

/-- Modelled from the spec: `hcl.Diagnostics.HasErrors` is declared outside the sources at
hand; the set of diagnostics has errors when any of its members is an error-level
diagnostic. -/
def HasErrors (diags : List Diagnostic) : Bool :=
  diags.any (fun d => d.severity == DiagnosticSeverity.DiagError)

/-- A Go `error` value as `runConvert` sees and builds them.
* `leaf msg`: an error that wraps nothing, with message `msg`;
* `diags ds`: an `hcl.Diagnostics` value returned as an error;
* `errorf before arg after`: `result.Errorf(before + "%q" + after, arg)`;
* `wrap context inner`: `fmt.Errorf(context + ": %w", inner)`. -/
inductive GoError where
  | leaf (msg : String)
  | diags (ds : List Diagnostic)
  | errorf (before : String) (arg : String) (after : String)
  | wrap (context : String) (inner : GoError)
  deriving DecidableEq, Repr

/-- The two renderings that live in libraries: `strconv.Quote` (the `%q` verb) and
`hcl.Diagnostics.Error`. -/
structure Rendering where
  quote : String → String
  diagsError : List Diagnostic → String

/-- The `Error()` message of a Go error. -/
def GoError.Error (r : Rendering) : GoError → String
  | .leaf msg => msg
  | .diags ds => r.diagsError ds
  | .errorf before arg after => before ++ r.quote arg ++ after
  | .wrap context inner => context ++ ": " ++ inner.Error r

/-- The error `err` carries `target`: `target` is the value `err`, or a value reached from it
by repeated `Unwrap`, which is the chain that `%w` builds and that `errors.Is` walks.  This
is a relation on the values of the chain; the library test `errors.Is` is narrower, since it
compares by identity and never matches a target of a non-comparable type such as
`hcl.Diagnostics`. -/
def GoError.carries : GoError → GoError → Bool
  | .wrap context inner, target =>
    (GoError.wrap context inner == target) || inner.carries target
  | .leaf msg, target => GoError.leaf msg == target
  | .diags ds, target => GoError.diags ds == target
  | .errorf b a c, target => GoError.errorf b a c == target

/-! ## Values exchanged with the collaborators -/

/-- A `plugin.Host`. -/
structure Host where
  id : Nat
  deriving DecidableEq, Repr

/-- The `schema.ReferenceLoader` built by `schema.NewPluginLoader(host)`. -/
structure Loader where
  host : Host
  deriving DecidableEq, Repr

/-- Wrapper `schema.NewPluginLoader`. -/
def schemaNewPluginLoader (host : Host) : Loader := ⟨host⟩

/-- An `*ast.TemplateDecl`. -/
structure Template where
  id : Nat
  deriving DecidableEq, Repr

/-- A `*pcl.Program`. -/
structure Program where
  id : Nat
  deriving DecidableEq, Repr

/-- A `workspace.ProjectRuntimeInfo`. -/
structure ProjectRuntimeInfo where
  name : String
  deriving DecidableEq, Repr

/-- A `workspace.Project`: the project manifest. -/
structure Project where
  name : String
  runtime : ProjectRuntimeInfo
  deriving DecidableEq, Repr

/-- A `plugin.LanguageRuntime`. -/
structure LanguagePlugin where
  id : Nat
  deriving DecidableEq, Repr

/-- The `*plugin.Context` returned by `engine.ProjectInfoContext`. -/
structure Context where
  id : Nat
  deriving DecidableEq, Repr

/-- Returned by `os.Getwd`. -/
structure GetwdResult where
  dir : String
  err : Option GoError
  deriving DecidableEq, Repr

/-- Returned by `plugin.NewContext`, of which only the `Host` field is used. -/
structure NewContextResult where
  host : Host
  err : Option GoError
  deriving DecidableEq, Repr

/-- Returned by `yamlgen.LoadTemplate` (the first value is discarded by the callers). -/
structure LoadTemplateResult where
  template : Template
  diags : List Diagnostic
  err : Option GoError
  deriving DecidableEq, Repr

/-- Returned by `yamlgen.ConvertTemplateIL`. -/
structure ConvertTemplateILResult where
  programText : String
  diags : List Diagnostic
  err : Option GoError
  deriving DecidableEq, Repr

/-- Returned by `yamlgen.Eject`. -/
structure EjectResult where
  proj : Project
  pclProgram : Program
  err : Option GoError
  deriving DecidableEq, Repr

/-- Returned by `host.LanguageRuntime`. -/
structure LanguageRuntimeResult where
  languagePlugin : LanguagePlugin
  err : Option GoError
  deriving DecidableEq, Repr

/-- Returned by `encoding.JSON.Marshal`. -/
structure MarshalResult where
  bytes : String
  err : Option GoError
  deriving DecidableEq, Repr

/-- Outcome of `os.Chdir`: the error, and the working directory the process has when the
call succeeded. -/
structure ChdirResult where
  dir : String
  err : Option GoError
  deriving DecidableEq, Repr

/-- Returned by `readProject`. -/
structure ReadProjectResult where
  proj : Project
  root : String
  err : Option GoError
  deriving DecidableEq, Repr

/-- Returned by `engine.ProjectInfoContext` (the second value is discarded by the caller). -/
structure ProjectInfoContextResult where
  pwd : String
  ctx : Context
  err : Option GoError
  deriving DecidableEq, Repr

/-- The statically linked generators: the values `gogen.GenerateProject`,
`nodejs.GenerateProject`, `python.GenerateProject`, `javagen.GenerateProject` and
`yamlgen.GenerateProject`. -/
inductive RegistryGenerator where
  | gogen
  | nodejs
  | python
  | javagen
  | yamlgen
  deriving DecidableEq, Repr

/-- The value held by the variable `projectGenerator`: one of the statically linked
generators, or the closure of the `default` arm, which captures `language`. -/
inductive GeneratorKind where
  | registry (g : RegistryGenerator)
  | plugin (language : String)
  deriving DecidableEq, Repr

/-! ## Transcript and world -/

/-- One call to a collaborator, with its arguments and what it returned. -/
inductive Event where
  | getwd (r : GetwdResult)
  | newContext (cwd : String) (r : NewContextResult)
  | closeHost (host : Host)
  | loadTemplate (dir : String) (r : LoadTemplateResult)
  | convertTemplateIL (template : Template) (loader : Loader) (r : ConvertTemplateILResult)
  | mkdirAll (path : String) (perm : Nat) (err : Option GoError)
  | writeFile (filename : String) (data : String) (perm : Nat) (err : Option GoError)
  | eject (dir : String) (loader : Loader) (r : EjectResult)
  | generateProject (g : RegistryGenerator) (directory : String) (project : Project)
      (program : Program) (err : Option GoError)
  | languageRuntime (host : Host) (runtime : String) (r : LanguageRuntimeResult)
  | pluginGenerateProject (languagePlugin : LanguagePlugin) (directory : String)
      (projectJSON : String) (programText : String) (err : Option GoError)
  | chdir (dir : String) (r : ChdirResult)
  | readProject (r : ReadProjectResult)
  | projectInfoContext (proj : Project) (root : String) (r : ProjectInfoContextResult)
  | closeContext (ctx : Context)
  | installDependencies (ctx : Context) (runtime : ProjectRuntimeInfo) (pwd : String)
      (err : Option GoError)
  deriving DecidableEq, Repr

/-- The state a run starts from and leaves behind: the working directory of the process, its
environment variables, and the transcript of collaborator calls, oldest first. -/
structure World where
  cwd : String
  environ : String → String
  trace : List Event

/-- Append one event to the transcript. -/
def World.log (w : World) (e : Event) : World :=
  { w with trace := w.trace ++ [e] }

/-- The collaborators.  Each one reads the world at the moment of the call. -/
structure Env where
  /-- Wrapper `cmdutil.IsTruthy`. -/
  isTruthy : String → Bool
  /-- Wrapper `path.Join`. -/
  pathJoin : String → String → String
  /-- The error of `os.Getwd`, if any. -/
  getwd : World → Option GoError
  /-- Wrapper `plugin.NewContext(sink, sink, nil, nil, cwd, nil, true, nil)`. -/
  newContext : World → String → NewContextResult
  /-- Wrapper `yamlgen.LoadTemplate(dir)`. -/
  loadTemplate : World → String → LoadTemplateResult
  /-- Wrapper `yamlgen.ConvertTemplateIL(template, loader)`. -/
  convertTemplateIL : World → Template → Loader → ConvertTemplateILResult
  /-- Wrapper `os.MkdirAll(path, perm)`. -/
  mkdirAll : World → String → Nat → Option GoError
  /-- Wrapper `ioutil.WriteFile(filename, data, perm)`. -/
  writeFile : World → String → String → Nat → Option GoError
  /-- Wrapper `yamlgen.Eject(dir, loader)`. -/
  eject : World → String → Loader → EjectResult
  /-- The statically linked `GenerateProject(directory, project, program)` functions. -/
  generateProject : RegistryGenerator → World → String → Project → Program → Option GoError
  /-- Wrapper `host.LanguageRuntime(runtime)`. -/
  languageRuntime : World → Host → String → LanguageRuntimeResult
  /-- Wrapper `encoding.JSON.Marshal(project)`. -/
  jsonMarshal : Project → MarshalResult
  /-- Wrapper `languagePlugin.GenerateProject(directory, projectJSON, programText)`. -/
  pluginGenerateProject : World → LanguagePlugin → String → String → String → Option GoError
  /-- Wrapper `os.Chdir(dir)`. -/
  chdir : World → String → ChdirResult
  /-- Wrapper `readProject()`. -/
  readProject : World → ReadProjectResult
  /-- Wrapper `engine.ProjectInfoContext(projinfo, nil, diag, diag, false, nil)`. -/
  projectInfoContext : World → Project → String → ProjectInfoContextResult
  /-- Wrapper `installDependencies(ctx, runtime, pwd)`. -/
  installDependencies : World → Context → ProjectRuntimeInfo → String → Option GoError

/-! ## The collaborator calls, recorded -/

/-- Call `os.Getwd()`. -/
def osGetwd (env : Env) (w : World) : GetwdResult × World :=
  let r : GetwdResult := ⟨w.cwd, env.getwd w⟩
  (r, w.log (.getwd r))

/-- Call `plugin.NewContext(sink, sink, nil, nil, cwd, nil, true, nil)`. -/
def pluginNewContext (env : Env) (cwd : String) (w : World) : NewContextResult × World :=
  let r := env.newContext w cwd
  (r, w.log (.newContext cwd r))

/-- Call `contract.IgnoreClose(host)`. -/
def contractIgnoreClose (host : Host) (w : World) : World :=
  w.log (.closeHost host)

/-- Call `yamlgen.LoadTemplate(dir)`. -/
def yamlgenLoadTemplate (env : Env) (dir : String) (w : World) : LoadTemplateResult × World :=
  let r := env.loadTemplate w dir
  (r, w.log (.loadTemplate dir r))

/-- Call `yamlgen.ConvertTemplateIL(template, loader)`. -/
def yamlgenConvertTemplateIL (env : Env) (template : Template) (loader : Loader) (w : World) :
    ConvertTemplateILResult × World :=
  let r := env.convertTemplateIL w template loader
  (r, w.log (.convertTemplateIL template loader r))

/-- Call `os.MkdirAll(path, perm)`. -/
def osMkdirAll (env : Env) (path : String) (perm : Nat) (w : World) : Option GoError × World :=
  let r := env.mkdirAll w path perm
  (r, w.log (.mkdirAll path perm r))

/-- Call `ioutil.WriteFile(filename, data, perm)`. -/
def ioutilWriteFile (env : Env) (filename data : String) (perm : Nat) (w : World) :
    Option GoError × World :=
  let r := env.writeFile w filename data perm
  (r, w.log (.writeFile filename data perm r))

/-- Call `yamlgen.Eject(dir, loader)`. -/
def yamlgenEject (env : Env) (dir : String) (loader : Loader) (w : World) : EjectResult × World :=
  let r := env.eject w dir loader
  (r, w.log (.eject dir loader r))

/-- Call one of the statically linked `GenerateProject` functions. -/
def registryGenerateProject (env : Env) (g : RegistryGenerator) (directory : String)
    (project : Project) (program : Program) (w : World) : Option GoError × World :=
  let r := env.generateProject g w directory project program
  (r, w.log (.generateProject g directory project program r))

/-- Call `host.LanguageRuntime(runtime)`. -/
def hostLanguageRuntime (env : Env) (host : Host) (runtime : String) (w : World) :
    LanguageRuntimeResult × World :=
  let r := env.languageRuntime w host runtime
  (r, w.log (.languageRuntime host runtime r))

/-- Call `languagePlugin.GenerateProject(directory, projectJSON, programText)`. -/
def languagePluginGenerateProject (env : Env) (languagePlugin : LanguagePlugin)
    (directory projectJSON programText : String) (w : World) : Option GoError × World :=
  let r := env.pluginGenerateProject w languagePlugin directory projectJSON programText
  (r, w.log (.pluginGenerateProject languagePlugin directory projectJSON programText r))

/-- Call `os.Chdir(dir)`: on success the process is in the directory the call resolved. -/
def osChdir (env : Env) (dir : String) (w : World) : Option GoError × World :=
  let r := env.chdir w dir
  match r.err with
  | some err => (some err, w.log (.chdir dir r))
  | none => (none, { w.log (.chdir dir r) with cwd := r.dir })

/-- Call `readProject()`. -/
def readProject (env : Env) (w : World) : ReadProjectResult × World :=
  let r := env.readProject w
  (r, w.log (.readProject r))

/-- Call `engine.ProjectInfoContext(projinfo, nil, diag, diag, false, nil)`. -/
def engineProjectInfoContext (env : Env) (proj : Project) (root : String) (w : World) :
    ProjectInfoContextResult × World :=
  let r := env.projectInfoContext w proj root
  (r, w.log (.projectInfoContext proj root r))

/-- Call `ctx.Close()`. -/
def ctxClose (ctx : Context) (w : World) : World :=
  w.log (.closeContext ctx)

/-- Call `installDependencies(ctx, runtime, pwd)`. -/
def installDependencies (env : Env) (ctx : Context) (runtime : ProjectRuntimeInfo)
    (pwd : String) (w : World) : Option GoError × World :=
  let r := env.installDependencies w ctx runtime pwd
  (r, w.log (.installDependencies ctx runtime pwd r))

/-! ## The program -/

/-- Function `newPluginHost` (convert.go, lines 239-252). -/
def newPluginHost (env : Env) (w : World) : Except GoError Host × World :=
  match osGetwd env w with
  | (⟨_, some err⟩, w) => (.error err, w)
  | (⟨cwd, none⟩, w) =>
    match pluginNewContext env cwd w with
    | (⟨_, some err⟩, w) => (.error err, w)
    | (⟨host, none⟩, w) => (.ok host, w)

/-- The block `if outDir != "." { err := os.MkdirAll(outDir, 0755) ... }`, which stands in
`runConvertPcl` (lines 101-106) and in `runConvert` (lines 192-197). -/
def mkdirOutDir (env : Env) (outDir : String) (w : World) : Option GoError × World :=
  if outDir ≠ "." then
    match osMkdirAll env outDir 0o755 w with
    | (some err, w) => (some (.wrap "could not create output directory" err), w)
    | (none, w) => (none, w)
  else (none, w)

/-- Function `runConvertPcl` (lines 85-115): convert the YAML program to PCL text and write it
to `main.pp` in `outDir`. -/
def runConvertPcl (env : Env) (host : Host) (cwd outDir : String) (w : World) :
    Option GoError × World :=
  let loader := schemaNewPluginLoader host
  match yamlgenLoadTemplate env cwd w with
  | (⟨_, _, some err⟩, w) => (some err, w)
  | (⟨template, diags, none⟩, w) =>
    if HasErrors diags then (some (.diags diags), w)
    else
      match yamlgenConvertTemplateIL env template loader w with
      | (⟨_, _, some err⟩, w) => (some err, w)
      | (⟨programText, _, none⟩, w) =>
        match mkdirOutDir env outDir w with
        | (some err, w) => (some err, w)
        | (none, w) =>
          let outputFile := env.pathJoin outDir "main.pp"
          match ioutilWriteFile env outputFile programText 0o600 w with
          | (some err, w) => (some (.wrap "could not write output program" err), w)
          | (none, w) => (none, w)

/-- The first `switch` of `runConvert` (lines 124-128): well known languages are translated
to runtimes. -/
def translateLanguage (language : String) : String :=
  match language with
  | "csharp" => "dotnet"
  | "c#" => "dotnet"
  | _ => language

/-- What an arm of the second `switch` of `runConvert` does: it assigns `projectGenerator`,
or it returns through `runConvertPcl`, or it returns the error "cannot generate programs". -/
inductive Branch where
  | generate (k : GeneratorKind)
  | fastPath
  | unsupported
  deriving DecidableEq, Repr

/-- The second `switch` of `runConvert` (lines 130-190), on the translated language. -/
def selectBranch (env : Env) (language : String) (w : World) : Branch :=
  match language with
  | "go" => .generate (.registry .gogen)
  | "typescript" => .generate (.registry .nodejs)
  | "python" => .generate (.registry .python)
  | "java" => .generate (.registry .javagen)
  | "yaml" => .generate (.registry .yamlgen)
  | "pulumi" =>
    if env.isTruthy (w.environ "PULUMI_DEV") then .fastPath else .unsupported
  | "pcl" =>
    if env.isTruthy (w.environ "PULUMI_DEV") then .fastPath else .unsupported
  | _ => .generate (.plugin language)

/-- The call `projectGenerator(directory, project, program)`: a statically linked generator,
or the closure of the `default` arm (lines 150-189), which captured `host`, `cwd` and
`language`. -/
def projectGenerator (env : Env) (host : Host) (cwd : String) (k : GeneratorKind)
    (directory : String) (project : Project) (program : Program) (w : World) :
    Option GoError × World :=
  match k with
  | .registry g => registryGenerateProject env g directory project program w
  | .plugin language =>
    let loader := schemaNewPluginLoader host
    match yamlgenLoadTemplate env cwd w with
    | (⟨_, _, some err⟩, w) => (some err, w)
    | (⟨template, diags, none⟩, w) =>
      if HasErrors diags then (some (.diags diags), w)
      else
        match yamlgenConvertTemplateIL env template loader w with
        | (⟨_, _, some err⟩, w) => (some err, w)
        | (⟨programText, diags, none⟩, w) =>
          if HasErrors diags then (some (.diags diags), w)
          else
            match hostLanguageRuntime env host language w with
            | (⟨_, some err⟩, w) => (some err, w)
            | (⟨languagePlugin, none⟩, w) =>
              match env.jsonMarshal project with
              | ⟨_, some err⟩ => (some err, w)
              | ⟨projectBytes, none⟩ =>
                let projectJSON := projectBytes
                match languagePluginGenerateProject env languagePlugin directory projectJSON
                    programText w with
                | (some err, w) => (some err, w)
                | (none, w) => (none, w)

/-- Lines 210-236 of `runConvert`: change into `outDir`, load the project, build the
execution context and, unless `generateOnly`, install the dependencies; `ctx.Close()` is
deferred once the context exists. -/
def postGenerate (env : Env) (outDir : String) (generateOnly : Bool) (w : World) :
    Option GoError × World :=
  match osChdir env outDir w with
  | (some err, w) => (some (.wrap "changing the working directory" err), w)
  | (none, w) =>
    match readProject env w with
    | (⟨_, _, some err⟩, w) => (some err, w)
    | (⟨proj, root, none⟩, w) =>
      match engineProjectInfoContext env proj root w with
      | (⟨_, _, some err⟩, w) => (some err, w)
      | (⟨pwd, ctx, none⟩, w) =>
        if !generateOnly then
          match installDependencies env ctx proj.runtime pwd w with
          | (some err, w) => (some err, ctxClose ctx w)
          | (none, w) => (none, ctxClose ctx w)
        else (none, ctxClose ctx w)

/-- Lines 192-236 of `runConvert`, once `projectGenerator` is assigned. -/
def generateAndInstall (env : Env) (host : Host) (cwd : String) (k : GeneratorKind)
    (outDir : String) (generateOnly : Bool) (w : World) : Option GoError × World :=
  match mkdirOutDir env outDir w with
  | (some err, w) => (some err, w)
  | (none, w) =>
    let loader := schemaNewPluginLoader host
    match yamlgenEject env cwd loader w with
    | (⟨_, _, some err⟩, w) => (some (.wrap "could not load yaml program" err), w)
    | (⟨proj, pclProgram, none⟩, w) =>
      match projectGenerator env host cwd k outDir proj pclProgram w with
      | (some err, w) => (some (.wrap "could not generate output program" err), w)
      | (none, w) => postGenerate env outDir generateOnly w

/-- Lines 124-236 of `runConvert`: everything between the creation of the plugin host and
the deferred `contract.IgnoreClose(host)`. -/
def runConvertWithHost (env : Env) (host : Host) (cwd language outDir : String)
    (generateOnly : Bool) (w : World) : Option GoError × World :=
  let language := translateLanguage language
  match selectBranch env language w with
  | .fastPath => runConvertPcl env host cwd outDir w
  | .unsupported => (some (.errorf "cannot generate programs for " language " language"), w)
  | .generate k => generateAndInstall env host cwd k outDir generateOnly w

/-- Function `runConvert` (lines 117-237).  The result is `none` for the Go `nil`. -/
def runConvert (env : Env) (cwd language outDir : String) (generateOnly : Bool) (w : World) :
    Option GoError × World :=
  match newPluginHost env w with
  | (.error err, w) => (some (.wrap "could not create plugin host" err), w)
  | (.ok host, w) =>
    match runConvertWithHost env host cwd language outDir generateOnly w with
    | (res, w) => (res, contractIgnoreClose host w)

/-! ## Observations on transcripts -/

/-- The events a run appended: the transcript of `w'` beyond that of `w`. -/
def eventsSince (w w' : World) : List Event :=
  w'.trace.drop w.trace.length

/-- A call that creates or closes the plugin host. -/
def Event.isHostLifecycle : Event → Bool
  | .getwd _ => true
  | .newContext _ _ => true
  | .closeHost _ => true
  | _ => false

/-- A call of `ioutil.WriteFile`. -/
def Event.isFileWrite : Event → Bool
  | .writeFile _ _ _ _ => true
  | _ => false

/-- A call that writes to the filesystem on behalf of `runConvert` itself. -/
def Event.isFilesystemWrite : Event → Bool
  | .writeFile _ _ _ _ => true
  | .mkdirAll _ _ _ => true
  | _ => false

/-- A call of the source loader: `LoadTemplate`, `ConvertTemplateIL` or `Eject`. -/
def Event.isLoader : Event → Bool
  | .loadTemplate _ _ => true
  | .convertTemplateIL _ _ _ => true
  | .eject _ _ _ => true
  | _ => false

/-- A call of a project generator: a statically linked one, or the plugin lookup and the
plugin's `GenerateProject`. -/
def Event.isGenerator : Event → Bool
  | .generateProject _ _ _ _ _ => true
  | .languageRuntime _ _ _ => true
  | .pluginGenerateProject _ _ _ _ _ => true
  | _ => false

/-- A generator call that returned `nil`. -/
def Event.isGeneratorSuccess : Event → Bool
  | .generateProject _ _ _ _ none => true
  | .pluginGenerateProject _ _ _ _ none => true
  | _ => false

/-- A call of `os.Chdir`. -/
def Event.isChdir : Event → Bool
  | .chdir _ _ => true
  | _ => false

/-- A call of `os.Chdir` that returned `nil`. -/
def Event.isChdirSuccess : Event → Bool
  | .chdir _ r => r.err.isNone
  | _ => false

/-- A call of `installDependencies`. -/
def Event.isInstall : Event → Bool
  | .installDependencies _ _ _ _ => true
  | _ => false

/-- A call made by lines 210-236 of `runConvert`. -/
def Event.isPostGeneration : Event → Bool
  | .chdir _ _ => true
  | .readProject _ => true
  | .projectInfoContext _ _ _ => true
  | .closeContext _ => true
  | .installDependencies _ _ _ _ => true
  | _ => false

/-! ## Sample environments -/

/-- A sample environment in which every collaborator succeeds. -/
def sampleEnv : Env where
  isTruthy s := s == "1" || s == "true" || s == "TRUE"
  pathJoin dir file := if dir = "." then file else dir ++ "/" ++ file
  getwd _ := none
  newContext _ _ := ⟨⟨1⟩, none⟩
  loadTemplate _ _ := ⟨⟨1⟩, [], none⟩
  convertTemplateIL _ _ _ := ⟨"key = readFile(\"key.pub\")", [], none⟩
  mkdirAll _ _ _ := none
  writeFile _ _ _ _ := none
  eject _ _ _ := ⟨⟨"demo", ⟨"yaml"⟩⟩, ⟨1⟩, none⟩
  generateProject _ _ _ _ _ := none
  languageRuntime _ _ _ := ⟨⟨1⟩, none⟩
  jsonMarshal p := ⟨p.name, none⟩
  pluginGenerateProject _ _ _ _ _ := none
  chdir w dir := ⟨if dir = "." then w.cwd else w.cwd ++ "/" ++ dir, none⟩
  readProject _ := ⟨⟨"demo", ⟨"go"⟩⟩, "/work/out", none⟩
  projectInfoContext _ _ root := ⟨root, ⟨1⟩, none⟩
  installDependencies _ _ _ _ := none

/-- A sample environment in which no language runtime plugin is found. -/
def noPluginEnv : Env :=
  { sampleEnv with
    languageRuntime := fun _ _ runtime =>
      ⟨⟨0⟩, some (.leaf ("could not find language plugin " ++ runtime))⟩ }

/-- A sample environment in which the statically linked generators fail. -/
def failingGeneratorEnv : Env :=
  { sampleEnv with
    generateProject := fun _ _ _ _ _ => some (.leaf "unsupported resource") }

/-- A sample environment whose source directory holds no program: `LoadTemplate` and `Eject`
fail. -/
def missingSourceEnv : Env :=
  { sampleEnv with
    loadTemplate := fun _ _ => ⟨⟨0⟩, [], some (.leaf "no Pulumi.yaml project file found")⟩
    eject := fun _ _ _ =>
      ⟨⟨"", ⟨""⟩⟩, ⟨0⟩, some (.leaf "no Pulumi.yaml project file found")⟩ }

/-- A sample environment in which the generated project cannot be read back. -/
def unreadableProjectEnv : Env :=
  { sampleEnv with
    readProject := fun _ =>
      ⟨⟨"", ⟨""⟩⟩, "", some (.leaf "no Pulumi.yaml project file found")⟩ }

/-- A sample environment in which `ConvertTemplateIL` returns no error value but reports an
error-level diagnostic. -/
def convertDiagnosticsEnv : Env :=
  { sampleEnv with
    convertTemplateIL := fun _ _ _ =>
      ⟨"", [⟨.DiagError, "unknown resource type"⟩], none⟩ }

/-- A sample world: the process is in `/work`, development mode is on, nothing was called. -/
def devWorld : World where
  cwd := "/work"
  environ name := if name = "PULUMI_DEV" then "TRUE" else ""
  trace := []

/-- A sample world: the process is in `/work`, no environment variable is set. -/
def plainWorld : World where
  cwd := "/work"
  environ _ := ""
  trace := []

/-! ## Frame lemmas -/

@[simp]
theorem log_trace (w : World) (e : Event) : (w.log e).trace = w.trace ++ [e] := rfl

@[simp]
theorem log_cwd (w : World) (e : Event) : (w.log e).cwd = w.cwd := rfl

@[simp]
theorem log_environ (w : World) (e : Event) : (w.log e).environ = w.environ := rfl

theorem eventsSince_of_trace {w w' : World} {evs : List Event}
    (h : w'.trace = w.trace ++ evs) : eventsSince w w' = evs := by
  simp [eventsSince, h]

theorem newPluginHost_ok {env : Env} {w w0 : World} {host : Host}
    (h : newPluginHost env w = (.ok host, w0)) :
    w0.trace = w.trace ++ [.getwd ⟨w.cwd, none⟩, .newContext w.cwd ⟨host, none⟩] ∧
    w0.cwd = w.cwd ∧ w0.environ = w.environ := by
  unfold newPluginHost osGetwd pluginNewContext at h
  simp only at h
  split at h
  · simp at h
  · rename_i heq
    split at h
    · simp at h
    · rename_i heq2
      simp at h heq heq2
      obtain ⟨rfl, rfl⟩ := h
      obtain ⟨⟨rfl, hg⟩, rfl⟩ := heq
      obtain ⟨hn, rfl⟩ := heq2
      rw [hg] at hn
      simp [hg, hn]

theorem yamlgenLoadTemplate_ok {env : Env} {dir : String} {w w1 : World} {r : LoadTemplateResult}
    (h : yamlgenLoadTemplate env dir w = (r, w1)) :
    w1.trace = w.trace ++ [.loadTemplate dir r] ∧ w1.cwd = w.cwd ∧ w1.environ = w.environ := by
  simp [yamlgenLoadTemplate] at h
  obtain ⟨rfl, rfl⟩ := h
  simp

theorem yamlgenConvertTemplateIL_ok {env : Env} {template : Template} {loader : Loader}
    {w w1 : World} {r : ConvertTemplateILResult}
    (h : yamlgenConvertTemplateIL env template loader w = (r, w1)) :
    w1.trace = w.trace ++ [.convertTemplateIL template loader r] ∧ w1.cwd = w.cwd ∧
    w1.environ = w.environ := by
  simp [yamlgenConvertTemplateIL] at h
  obtain ⟨rfl, rfl⟩ := h
  simp

theorem osMkdirAll_ok {env : Env} {path : String} {perm : Nat} {w w1 : World}
    {r : Option GoError} (h : osMkdirAll env path perm w = (r, w1)) :
    w1.trace = w.trace ++ [.mkdirAll path perm r] ∧ w1.cwd = w.cwd ∧
    w1.environ = w.environ := by
  simp [osMkdirAll] at h
  obtain ⟨rfl, rfl⟩ := h
  simp

theorem ioutilWriteFile_ok {env : Env} {filename data : String} {perm : Nat} {w w1 : World}
    {r : Option GoError} (h : ioutilWriteFile env filename data perm w = (r, w1)) :
    w1.trace = w.trace ++ [.writeFile filename data perm r] ∧ w1.cwd = w.cwd ∧
    w1.environ = w.environ := by
  simp [ioutilWriteFile] at h
  obtain ⟨rfl, rfl⟩ := h
  simp

theorem yamlgenEject_ok {env : Env} {dir : String} {loader : Loader} {w w1 : World}
    {r : EjectResult} (h : yamlgenEject env dir loader w = (r, w1)) :
    w1.trace = w.trace ++ [.eject dir loader r] ∧ w1.cwd = w.cwd ∧ w1.environ = w.environ := by
  simp [yamlgenEject] at h
  obtain ⟨rfl, rfl⟩ := h
  simp

theorem registryGenerateProject_ok {env : Env} {g : RegistryGenerator} {directory : String}
    {project : Project} {program : Program} {w w1 : World} {r : Option GoError}
    (h : registryGenerateProject env g directory project program w = (r, w1)) :
    w1.trace = w.trace ++ [.generateProject g directory project program r] ∧ w1.cwd = w.cwd ∧
    w1.environ = w.environ := by
  simp [registryGenerateProject] at h
  obtain ⟨rfl, rfl⟩ := h
  simp

theorem hostLanguageRuntime_ok {env : Env} {host : Host} {runtime : String} {w w1 : World}
    {r : LanguageRuntimeResult} (h : hostLanguageRuntime env host runtime w = (r, w1)) :
    w1.trace = w.trace ++ [.languageRuntime host runtime r] ∧ w1.cwd = w.cwd ∧
    w1.environ = w.environ := by
  simp [hostLanguageRuntime] at h
  obtain ⟨rfl, rfl⟩ := h
  simp

theorem languagePluginGenerateProject_ok {env : Env} {languagePlugin : LanguagePlugin}
    {directory projectJSON programText : String} {w w1 : World} {r : Option GoError}
    (h : languagePluginGenerateProject env languagePlugin directory projectJSON programText w
      = (r, w1)) :
    w1.trace = w.trace ++
      [.pluginGenerateProject languagePlugin directory projectJSON programText r] ∧
    w1.cwd = w.cwd ∧ w1.environ = w.environ := by
  simp [languagePluginGenerateProject] at h
  obtain ⟨rfl, rfl⟩ := h
  simp

theorem osChdir_ok {env : Env} {dir : String} {w w1 : World} {r : Option GoError}
    (h : osChdir env dir w = (r, w1)) :
    w1.trace = w.trace ++ [.chdir dir (env.chdir w dir)] ∧ (env.chdir w dir).err = r ∧
    w1.cwd = (if r = none then (env.chdir w dir).dir else w.cwd) ∧
    w1.environ = w.environ := by
  unfold osChdir at h
  simp only at h
  cases hc : (env.chdir w dir).err with
  | some err =>
    simp [hc] at h
    obtain ⟨rfl, rfl⟩ := h
    simp
  | none =>
    simp [hc] at h
    obtain ⟨rfl, rfl⟩ := h
    simp

theorem readProject_ok {env : Env} {w w1 : World} {r : ReadProjectResult}
    (h : readProject env w = (r, w1)) :
    w1.trace = w.trace ++ [.readProject r] ∧ w1.cwd = w.cwd ∧ w1.environ = w.environ := by
  simp [readProject] at h
  obtain ⟨rfl, rfl⟩ := h
  simp

theorem engineProjectInfoContext_ok {env : Env} {proj : Project} {root : String}
    {w w1 : World} {r : ProjectInfoContextResult}
    (h : engineProjectInfoContext env proj root w = (r, w1)) :
    w1.trace = w.trace ++ [.projectInfoContext proj root r] ∧ w1.cwd = w.cwd ∧
    w1.environ = w.environ := by
  simp [engineProjectInfoContext] at h
  obtain ⟨rfl, rfl⟩ := h
  simp

theorem installDependencies_ok {env : Env} {ctx : Context} {runtime : ProjectRuntimeInfo}
    {pwd : String} {w w1 : World} {r : Option GoError}
    (h : installDependencies env ctx runtime pwd w = (r, w1)) :
    w1.trace = w.trace ++ [.installDependencies ctx runtime pwd r] ∧ w1.cwd = w.cwd ∧
    w1.environ = w.environ := by
  simp [installDependencies] at h
  obtain ⟨rfl, rfl⟩ := h
  simp

@[simp]
theorem ctxClose_trace (ctx : Context) (w : World) :
    (ctxClose ctx w).trace = w.trace ++ [.closeContext ctx] := rfl

@[simp]
theorem ctxClose_cwd (ctx : Context) (w : World) : (ctxClose ctx w).cwd = w.cwd := rfl

@[simp]
theorem ctxClose_environ (ctx : Context) (w : World) :
    (ctxClose ctx w).environ = w.environ := rfl

@[simp]
theorem contractIgnoreClose_trace (host : Host) (w : World) :
    (contractIgnoreClose host w).trace = w.trace ++ [.closeHost host] := rfl

@[simp]
theorem contractIgnoreClose_cwd (host : Host) (w : World) :
    (contractIgnoreClose host w).cwd = w.cwd := rfl

@[simp]
theorem contractIgnoreClose_environ (host : Host) (w : World) :
    (contractIgnoreClose host w).environ = w.environ := rfl

theorem mkdirOutDir_ok {env : Env} {outDir : String} {w w1 : World}
    (h : mkdirOutDir env outDir w = (none, w1)) :
    w1.trace = w.trace ++ (if outDir ≠ "." then [Event.mkdirAll outDir 0o755 none] else []) ∧
    w1.cwd = w.cwd ∧ w1.environ = w.environ := by
  unfold mkdirOutDir at h
  by_cases hd : outDir = "."
  · simp [hd] at h
    subst h
    simp [hd]
  · simp only [ne_eq, hd, not_false_eq_true, if_true] at h
    cases hm : osMkdirAll env outDir 0o755 w with
    | mk r w2 =>
      obtain ⟨t, c, e⟩ := osMkdirAll_ok hm
      rw [hm] at h
      cases r with
      | some err => simp at h
      | none =>
        simp at h
        subst h
        simp [hd, t, c, e]

theorem mkdirOutDir_frame {env : Env} {outDir : String} {w w1 : World} {res : Option GoError}
    (h : mkdirOutDir env outDir w = (res, w1)) :
    ∃ evs, w1.trace = w.trace ++ evs ∧ w1.cwd = w.cwd ∧ w1.environ = w.environ ∧
      ∀ e ∈ evs, ∃ err, e = .mkdirAll outDir 0o755 err := by
  refine ⟨eventsSince w w1, ?_⟩
  unfold mkdirOutDir at h
  by_cases hd : outDir = "."
  · simp [hd] at h
    obtain ⟨rfl, rfl⟩ := h
    simp [eventsSince]
  · simp only [ne_eq, hd, not_false_eq_true, if_true] at h
    cases hm : osMkdirAll env outDir 0o755 w with
    | mk r w2 =>
      obtain ⟨t, c, e⟩ := osMkdirAll_ok hm
      rw [hm] at h
      cases r with
      | some err =>
        simp at h
        obtain ⟨rfl, rfl⟩ := h
        simp [eventsSince, t, c, e]
      | none =>
        simp at h
        obtain ⟨rfl, rfl⟩ := h
        simp [eventsSince, t, c, e]

theorem projectGenerator_frame {env : Env} {host : Host} {cwd : String} {k : GeneratorKind}
    {directory : String} {project : Project} {program : Program} {w w' : World}
    {res : Option GoError}
    (h : projectGenerator env host cwd k directory project program w = (res, w')) :
    ∃ evs, w'.trace = w.trace ++ evs ∧ w'.cwd = w.cwd ∧ w'.environ = w.environ ∧
      (∀ e ∈ evs, e.isPostGeneration = false ∧ e.isHostLifecycle = false ∧
        e.isFileWrite = false ∧ ∀ h n r, e = .languageRuntime h n r → k = .plugin n) ∧
      (res = none → ∃ g ∈ evs, g.isGeneratorSuccess = true) := by
  refine ⟨eventsSince w w', ?_⟩
  cases k with
  | registry g =>
    obtain ⟨t, c, e⟩ := registryGenerateProject_ok h
    simp [projectGenerator, registryGenerateProject] at h
    obtain ⟨rfl, rfl⟩ := h
    simp [eventsSince, Event.isPostGeneration, Event.isHostLifecycle, Event.isFileWrite]
    intro h
    simp [h, Event.isGeneratorSuccess]
  | plugin language =>
    unfold projectGenerator at h
    simp only at h
    cases h1 : yamlgenLoadTemplate env cwd w with
    | mk r1 w1 =>
    obtain ⟨t1, c1, e1⟩ := yamlgenLoadTemplate_ok h1
    rw [h1] at h
    obtain ⟨template, diags, _ | err⟩ := r1
    swap
    · simp at h
      obtain ⟨rfl, rfl⟩ := h
      simp [eventsSince, t1, c1, e1, Event.isPostGeneration, Event.isHostLifecycle,
        Event.isFileWrite]
    simp only at h
    by_cases hd : HasErrors diags = true
    · simp [hd] at h
      obtain ⟨rfl, rfl⟩ := h
      simp [eventsSince, t1, c1, e1, Event.isPostGeneration, Event.isHostLifecycle,
        Event.isFileWrite]
    simp only [hd] at h
    cases h2 : yamlgenConvertTemplateIL env template (schemaNewPluginLoader host) w1 with
    | mk r2 w2 =>
    obtain ⟨t2, c2, e2⟩ := yamlgenConvertTemplateIL_ok h2
    rw [h2] at h
    obtain ⟨programText, diags2, _ | err⟩ := r2
    swap
    · simp at h
      obtain ⟨rfl, rfl⟩ := h
      simp [eventsSince, t1, c1, e1, t2, c2, e2, Event.isPostGeneration,
        Event.isHostLifecycle, Event.isFileWrite]
    simp only [Bool.false_eq_true, if_false] at h
    by_cases hd2 : HasErrors diags2 = true
    · simp [hd2] at h
      obtain ⟨rfl, rfl⟩ := h
      simp [eventsSince, t1, c1, e1, t2, c2, e2, Event.isPostGeneration,
        Event.isHostLifecycle, Event.isFileWrite]
    simp only [hd2] at h
    cases h3 : hostLanguageRuntime env host language w2 with
    | mk r3 w3 =>
    obtain ⟨t3, c3, e3⟩ := hostLanguageRuntime_ok h3
    rw [h3] at h
    obtain ⟨languagePlugin, _ | err⟩ := r3
    swap
    · simp at h
      obtain ⟨rfl, rfl⟩ := h
      simp [eventsSince, t1, c1, e1, t2, c2, e2, t3, c3, e3, Event.isPostGeneration,
        Event.isHostLifecycle, Event.isFileWrite]
    simp only [Bool.false_eq_true, if_false] at h
    cases h4 : env.jsonMarshal project with
    | mk bytes merr =>
    rw [h4] at h
    cases merr with
    | some err =>
      simp at h
      obtain ⟨rfl, rfl⟩ := h
      simp [eventsSince, t1, c1, e1, t2, c2, e2, t3, c3, e3, Event.isPostGeneration,
        Event.isHostLifecycle, Event.isFileWrite]
    | none =>
    simp only at h
    cases h5 : languagePluginGenerateProject env languagePlugin directory bytes programText
      w3 with
    | mk r5 w5 =>
    obtain ⟨t5, c5, e5⟩ := languagePluginGenerateProject_ok h5
    rw [h5] at h
    cases r5 with
    | some err =>
      simp at h
      obtain ⟨rfl, rfl⟩ := h
      simp [eventsSince, t1, c1, e1, t2, c2, e2, t3, c3, e3, t5, c5, e5,
        Event.isPostGeneration, Event.isHostLifecycle, Event.isFileWrite]
    | none =>
      simp at h
      obtain ⟨rfl, rfl⟩ := h
      simp [eventsSince, t1, c1, e1, t2, c2, e2, t3, c3, e3, t5, c5, e5,
        Event.isPostGeneration, Event.isHostLifecycle, Event.isFileWrite,
        Event.isGeneratorSuccess]

theorem postGenerate_frame {env : Env} {outDir : String} {generateOnly : Bool} {w w' : World}
    {res : Option GoError} (h : postGenerate env outDir generateOnly w = (res, w')) :
    ∃ evs, w'.trace = w.trace ++ evs ∧ w'.environ = w.environ ∧
      evs ≠ [] ∧
      (∀ e ∈ evs, e.isPostGeneration = true) ∧
      evs.countP Event.isInstall ≤ 1 ∧
      (generateOnly = true → ∀ e ∈ evs, e.isInstall = false) ∧
      ((∀ e ∈ evs, e.isChdirSuccess = false) → w'.cwd = w.cwd) ∧
      (∀ d r, Event.chdir d r ∈ evs → d = outDir ∧ (r.err = none → w'.cwd = r.dir)) ∧
      (∃ tail, evs = Event.chdir outDir (env.chdir w outDir) :: tail) := by
  refine ⟨eventsSince w w', ?_⟩
  unfold postGenerate at h
  cases h1 : osChdir env outDir w with
  | mk r1 w1 =>
  obtain ⟨t1, hr1, c1, e1⟩ := osChdir_ok h1
  rw [h1] at h
  cases r1 with
  | some err =>
    simp at h
    obtain ⟨rfl, rfl⟩ := h
    simp at c1
    simp [eventsSince, t1, c1, e1, hr1, Event.isPostGeneration, Event.isInstall,
      Event.isChdirSuccess]
  | none =>
  simp only at h
  simp at c1
  cases h2 : readProject env w1 with
  | mk r2 w2 =>
  obtain ⟨t2, c2, e2⟩ := readProject_ok h2
  rw [h2] at h
  obtain ⟨proj, root, _ | err⟩ := r2
  swap
  · simp at h
    obtain ⟨rfl, rfl⟩ := h
    simp [eventsSince, t1, c1, e1, hr1, t2, c2, e2, Event.isPostGeneration, Event.isInstall,
      Event.isChdirSuccess]
  simp only at h
  cases h3 : engineProjectInfoContext env proj root w2 with
  | mk r3 w3 =>
  obtain ⟨t3, c3, e3⟩ := engineProjectInfoContext_ok h3
  rw [h3] at h
  obtain ⟨pwd, ctx, _ | err⟩ := r3
  swap
  · simp at h
    obtain ⟨rfl, rfl⟩ := h
    simp [eventsSince, t1, c1, e1, hr1, t2, c2, e2, t3, c3, e3, Event.isPostGeneration,
      Event.isInstall, Event.isChdirSuccess]
  simp only at h
  cases generateOnly with
  | true =>
    simp at h
    obtain ⟨rfl, rfl⟩ := h
    simp [eventsSince, t1, c1, e1, hr1, t2, c2, e2, t3, c3, e3, Event.isPostGeneration,
      Event.isInstall, Event.isChdirSuccess]
  | false =>
    simp only [Bool.not_false, if_true] at h
    cases h4 : installDependencies env ctx proj.runtime pwd w3 with
    | mk r4 w4 =>
    obtain ⟨t4, c4, e4⟩ := installDependencies_ok h4
    rw [h4] at h
    cases r4 with
    | some err =>
      simp at h
      obtain ⟨rfl, rfl⟩ := h
      simp [eventsSince, t1, c1, e1, hr1, t2, c2, e2, t3, c3, e3, t4, c4, e4,
        Event.isPostGeneration, Event.isInstall, Event.isChdirSuccess]
    | none =>
      simp at h
      obtain ⟨rfl, rfl⟩ := h
      simp [eventsSince, t1, c1, e1, hr1, t2, c2, e2, t3, c3, e3, t4, c4, e4,
        Event.isPostGeneration, Event.isInstall, Event.isChdirSuccess]

theorem generateAndInstall_frame {env : Env} {host : Host} {cwd : String} {k : GeneratorKind}
    {outDir : String} {generateOnly : Bool} {w w' : World} {res : Option GoError}
    (h : generateAndInstall env host cwd k outDir generateOnly w = (res, w')) :
    ∃ a b, w'.trace = w.trace ++ (a ++ b) ∧ w'.environ = w.environ ∧
      (∀ e ∈ a, e.isPostGeneration = false ∧ e.isHostLifecycle = false ∧
        e.isFileWrite = false ∧ ∀ h n r, e = .languageRuntime h n r → k = .plugin n) ∧
      (b ≠ [] → ∃ g ∈ a, g.isGeneratorSuccess = true) ∧
      (∀ e ∈ b, e.isPostGeneration = true) ∧
      b.countP Event.isInstall ≤ 1 ∧
      (generateOnly = true → ∀ e ∈ b, e.isInstall = false) ∧
      ((∀ e ∈ b, e.isChdirSuccess = false) → w'.cwd = w.cwd) ∧
      (∀ d r, Event.chdir d r ∈ b → d = outDir ∧ (r.err = none → w'.cwd = r.dir)) := by
  unfold generateAndInstall at h
  cases h0 : mkdirOutDir env outDir w with
  | mk r0 w0 =>
  obtain ⟨evs0, t0, c0, e0, p0⟩ := mkdirOutDir_frame h0
  have q0 : ∀ e ∈ evs0, e.isPostGeneration = false ∧ e.isHostLifecycle = false ∧
      e.isFileWrite = false ∧ ∀ h n r, e = .languageRuntime h n r → k = .plugin n := by
    intro e he
    obtain ⟨err, rfl⟩ := p0 e he
    simp [Event.isPostGeneration, Event.isHostLifecycle, Event.isFileWrite]
  rw [h0] at h
  cases r0 with
  | some err =>
    simp at h
    obtain ⟨rfl, rfl⟩ := h
    exact ⟨evs0, [], by simp [t0], e0, q0, by simp, by simp, by simp, by simp,
      by simp [c0], by simp⟩
  | none =>
  simp only at h
  cases h1 : yamlgenEject env cwd (schemaNewPluginLoader host) w0 with
  | mk r1 w1 =>
  obtain ⟨t1, c1, e1⟩ := yamlgenEject_ok h1
  rw [h1] at h
  have q1 : ∀ e ∈ evs0 ++ [Event.eject cwd (schemaNewPluginLoader host) r1],
      e.isPostGeneration = false ∧ e.isHostLifecycle = false ∧
      e.isFileWrite = false ∧ ∀ h n r, e = .languageRuntime h n r → k = .plugin n := by
    intro e he
    rcases List.mem_append.1 he with he | he
    · exact q0 e he
    · simp at he
      subst he
      simp [Event.isPostGeneration, Event.isHostLifecycle, Event.isFileWrite]
  obtain ⟨proj, pclProgram, _ | err⟩ := r1
  swap
  · simp at h
    obtain ⟨rfl, rfl⟩ := h
    exact ⟨_, [], by simp [t1, t0], by simp [e1, e0], q1, by simp, by simp, by simp, by simp,
      by simp [c1, c0], by simp⟩
  simp only at h
  cases h2 : projectGenerator env host cwd k outDir proj pclProgram w1 with
  | mk r2 w2 =>
  obtain ⟨evs2, t2, c2, e2, p2, s2⟩ := projectGenerator_frame h2
  rw [h2] at h
  have q2 : ∀ e ∈ (evs0 ++ [Event.eject cwd (schemaNewPluginLoader host)
      ⟨proj, pclProgram, none⟩]) ++ evs2,
      e.isPostGeneration = false ∧ e.isHostLifecycle = false ∧
      e.isFileWrite = false ∧ ∀ h n r, e = .languageRuntime h n r → k = .plugin n := by
    intro e he
    rcases List.mem_append.1 he with he | he
    · exact q1 e he
    · exact p2 e he
  cases r2 with
  | some err =>
    simp at h
    obtain ⟨rfl, rfl⟩ := h
    exact ⟨_, [], by simp [t2, t1, t0], by simp [e2, e1, e0], q2, by simp, by simp, by simp,
      by simp, by simp [c2, c1, c0], by simp⟩
  | none =>
    simp only at h
    obtain ⟨evs3, t3, e3, n3, p3, i3, g3, cw3, cd3, _⟩ := postGenerate_frame h
    obtain ⟨g, hg, hs⟩ := s2 rfl
    refine ⟨_, evs3, by simp [t3, t2, t1, t0], by simp [e3, e2, e1, e0], q2,
      fun _ => ⟨g, List.mem_append_right _ hg, hs⟩, p3, i3, g3, ?_, cd3⟩
    intro hc
    rw [cw3 hc, c2, c1, c0]

theorem runConvertPcl_frame {env : Env} {host : Host} {cwd outDir : String} {w w' : World}
    {res : Option GoError} (h : runConvertPcl env host cwd outDir w = (res, w')) :
    ∃ evs, w'.trace = w.trace ++ evs ∧ w'.cwd = w.cwd ∧ w'.environ = w.environ ∧
      (∀ e ∈ evs, e.isPostGeneration = false ∧ e.isGenerator = false ∧
        e.isHostLifecycle = false) := by
  unfold runConvertPcl at h
  simp only at h
  cases h1 : yamlgenLoadTemplate env cwd w with
  | mk r1 w1 =>
  obtain ⟨t1, c1, e1⟩ := yamlgenLoadTemplate_ok h1
  rw [h1] at h
  obtain ⟨template, diags, _ | err⟩ := r1
  swap
  · simp at h
    obtain ⟨rfl, rfl⟩ := h
    exact ⟨_, t1, c1, e1, by simp [Event.isPostGeneration, Event.isGenerator,
      Event.isHostLifecycle]⟩
  simp only at h
  by_cases hd : HasErrors diags = true
  · simp [hd] at h
    obtain ⟨rfl, rfl⟩ := h
    exact ⟨_, t1, c1, e1, by simp [Event.isPostGeneration, Event.isGenerator,
      Event.isHostLifecycle]⟩
  simp only [hd] at h
  cases h2 : yamlgenConvertTemplateIL env template (schemaNewPluginLoader host) w1 with
  | mk r2 w2 =>
  obtain ⟨t2, c2, e2⟩ := yamlgenConvertTemplateIL_ok h2
  rw [h2] at h
  obtain ⟨programText, diags2, _ | err⟩ := r2
  swap
  · simp at h
    obtain ⟨rfl, rfl⟩ := h
    exact ⟨[Event.loadTemplate cwd ⟨template, diags, none⟩, Event.convertTemplateIL template (schemaNewPluginLoader host)
      ⟨programText, diags2, some err⟩], by simp [t2, t1], by simp [c2, c1], by simp [e2, e1],
      by simp [Event.isPostGeneration, Event.isGenerator, Event.isHostLifecycle]⟩
  simp only [Bool.false_eq_true, if_false] at h
  cases h3 : mkdirOutDir env outDir w2 with
  | mk r3 w3 =>
  obtain ⟨evs3, t3, c3, e3, p3⟩ := mkdirOutDir_frame h3
  have q3 : ∀ e ∈ evs3, e.isPostGeneration = false ∧ e.isGenerator = false ∧
      e.isHostLifecycle = false := by
    intro e he
    obtain ⟨err, rfl⟩ := p3 e he
    simp [Event.isPostGeneration, Event.isGenerator, Event.isHostLifecycle]
  rw [h3] at h
  cases r3 with
  | some err =>
    simp at h
    obtain ⟨rfl, rfl⟩ := h
    refine ⟨[Event.loadTemplate cwd ⟨template, diags, none⟩, Event.convertTemplateIL template (schemaNewPluginLoader host)
      ⟨programText, diags2, none⟩] ++ evs3, by simp [t3, t2, t1], by simp [c3, c2, c1],
      by simp [e3, e2, e1], ?_⟩
    intro e he
    rcases List.mem_append.1 he with he1 | he1
    · simp at he1
      rcases he1 with rfl | rfl <;>
        simp [Event.isPostGeneration, Event.isGenerator, Event.isHostLifecycle]
    · exact q3 e he1
  | none =>
  simp only at h
  cases h4 : ioutilWriteFile env (env.pathJoin outDir "main.pp") programText 0o600 w3 with
  | mk r4 w4 =>
  obtain ⟨t4, c4, e4⟩ := ioutilWriteFile_ok h4
  rw [h4] at h
  have hw : w' = w4 := by
    cases r4 <;> simp at h <;> exact h.2.symm
  subst hw
  refine ⟨[Event.loadTemplate cwd ⟨template, diags, none⟩, Event.convertTemplateIL template (schemaNewPluginLoader host)
      ⟨programText, diags2, none⟩] ++ evs3 ++
    [Event.writeFile (env.pathJoin outDir "main.pp") programText 0o600 r4],
    by simp [t4, t3, t2, t1], by simp [c4, c3, c2, c1],
    by simp [e4, e3, e2, e1], ?_⟩
  intro e he
  rcases List.mem_append.1 he with he1 | he1
  · rcases List.mem_append.1 he1 with he2 | he2
    · simp at he2
      rcases he2 with rfl | rfl <;>
        simp [Event.isPostGeneration, Event.isGenerator, Event.isHostLifecycle]
    · exact q3 e he2
  · simp at he1
    subst he1
    simp [Event.isPostGeneration, Event.isGenerator, Event.isHostLifecycle]

theorem newPluginHost_frame (env : Env) (w : World) :
    ∃ evs, (newPluginHost env w).2.trace = w.trace ++ evs ∧
      (∀ e ∈ evs, e.isHostLifecycle = true) ∧
      (newPluginHost env w).2.cwd = w.cwd ∧ (newPluginHost env w).2.environ = w.environ := by
  unfold newPluginHost osGetwd pluginNewContext
  cases hg : env.getwd w with
  | some err =>
    exact ⟨[.getwd ⟨w.cwd, some err⟩], by simp, by simp [Event.isHostLifecycle],
      by simp, by simp⟩
  | none =>
    cases hn : env.newContext (w.log (.getwd ⟨w.cwd, none⟩)) w.cwd with
    | mk host err =>
      cases err with
      | some err =>
        exact ⟨[.getwd ⟨w.cwd, none⟩, .newContext w.cwd ⟨host, some err⟩],
          by simp [hn], by simp [Event.isHostLifecycle],
          by simp [hn], by simp [hn]⟩
      | none =>
        exact ⟨[.getwd ⟨w.cwd, none⟩, .newContext w.cwd ⟨host, none⟩],
          by simp [hn], by simp [Event.isHostLifecycle],
          by simp [hn], by simp [hn]⟩

theorem hostLifecycle_excludes (e : Event) (h : e.isHostLifecycle = true) :
    e.isFilesystemWrite = false ∧ e.isLoader = false ∧ e.isGenerator = false ∧
    e.isInstall = false ∧ e.isChdir = false ∧ e.isPostGeneration = false := by
  cases e <;> simp_all [Event.isHostLifecycle, Event.isFilesystemWrite, Event.isLoader,
    Event.isGenerator, Event.isInstall, Event.isChdir, Event.isPostGeneration]

theorem selectBranch_fastPath (env : Env) (language : String) (w : World)
    (h : selectBranch env language w = .fastPath) :
    (language = "pulumi" ∨ language = "pcl") ∧ env.isTruthy (w.environ "PULUMI_DEV") = true := by
  unfold selectBranch at h
  split at h <;> simp_all

theorem GoError.carries_self (e : GoError) : e.carries e = true := by
  cases e <;> simp [GoError.carries]

theorem install_isPostGeneration (e : Event) (h : e.isInstall = true) :
    e.isPostGeneration = true := by
  cases e <;> simp_all [Event.isPostGeneration, Event.isInstall]

theorem prefix_of_split {a b pre post : List Event} {e : Event}
    (h : a ++ b = pre ++ e :: post) (he : e ∉ a) : ∃ c, pre = a ++ c := by
  rcases List.append_eq_append_iff.1 h with ⟨a', h1, _⟩ | ⟨c', h1, h2⟩
  · exact ⟨a', h1⟩
  · cases c' with
    | nil => exact ⟨[], by simp [h1]⟩
    | cons x c'' =>
      simp at h2
      exact absurd (by simp [h1, h2.1]) he

theorem postGeneration_not_generator (e : Event) (h : e.isPostGeneration = true) :
    e.isGenerator = false := by
  cases e <;> simp_all [Event.isPostGeneration, Event.isGenerator]

theorem selectBranch_generate_plugin (env : Env) (language n : String) (w : World)
    (h : selectBranch env language w = .generate (.plugin n)) : n = language := by
  unfold selectBranch at h
  split at h <;> (try split at h) <;> simp at h
  exact h.symm

theorem runConvert_frame {env : Env} {cwd language outDir : String} {generateOnly : Bool}
    {w w' : World} {res : Option GoError}
    (h : runConvert env cwd language outDir generateOnly w = (res, w')) :
    ∃ a b, w'.trace = w.trace ++ (a ++ b) ∧ w'.environ = w.environ ∧
      (∀ e ∈ a, e.isPostGeneration = false ∧
        ∀ h n r, e = .languageRuntime h n r → n = translateLanguage language) ∧
      ((∃ e ∈ b, e.isPostGeneration = true) → ∃ g ∈ a, g.isGeneratorSuccess = true) ∧
      (∀ e ∈ b, e.isGenerator = false) ∧
      b.countP Event.isInstall ≤ 1 ∧
      (generateOnly = true → ∀ e ∈ b, e.isInstall = false) ∧
      ((∀ e ∈ b, e.isChdirSuccess = false) → w'.cwd = w.cwd) ∧
      (∀ d r, Event.chdir d r ∈ b → d = outDir ∧ (r.err = none → w'.cwd = r.dir)) := by
  obtain ⟨evsH, tH, pH, cH, eH⟩ := newPluginHost_frame env w
  have qH : ∀ e ∈ evsH, e.isPostGeneration = false ∧
      ∀ h n r, e = .languageRuntime h n r → n = translateLanguage language := by
    intro e he
    refine ⟨(hostLifecycle_excludes e (pH e he)).2.2.2.2.2, ?_⟩
    intro h n r heq
    have := pH e he
    subst heq
    simp [Event.isHostLifecycle] at this
  unfold runConvert at h
  cases h0 : newPluginHost env w with
  | mk r0 w0 =>
  rw [h0] at h tH cH eH
  simp only at tH cH eH
  cases r0 with
  | error err =>
    simp at h
    obtain ⟨rfl, rfl⟩ := h
    exact ⟨evsH, [], by simp [tH], eH, qH, by simp, by simp, by simp, by simp,
      by simp [cH], by simp⟩
  | ok host =>
  simp only at h
  cases h1 : runConvertWithHost env host cwd language outDir generateOnly w0 with
  | mk r1 w1 =>
  rw [h1] at h
  simp at h
  obtain ⟨rfl, rfl⟩ := h
  unfold runConvertWithHost at h1
  simp only at h1
  cases hb : selectBranch env (translateLanguage language) w0 with
  | fastPath =>
    rw [hb] at h1
    simp only at h1
    obtain ⟨evs1, t1, c1, e1, p1⟩ := runConvertPcl_frame h1
    refine ⟨evsH ++ evs1, [.closeHost host], by simp [t1, tH], by simp [e1, eH], ?_,
      by simp [Event.isPostGeneration], by simp [Event.isGenerator], by simp [Event.isInstall],
      by simp [Event.isInstall], by simp [c1, cH], by simp⟩
    intro e he
    rcases List.mem_append.1 he with he1 | he1
    · exact qH e he1
    · refine ⟨(p1 e he1).1, ?_⟩
      intro h n r heq
      have := (p1 e he1).2.1
      subst heq
      simp [Event.isGenerator] at this
  | unsupported =>
    rw [hb] at h1
    simp at h1
    obtain ⟨rfl, rfl⟩ := h1
    exact ⟨evsH, [.closeHost host], by simp [tH], by simp [eH], qH,
      by simp [Event.isPostGeneration], by simp [Event.isGenerator], by simp [Event.isInstall],
      by simp [Event.isInstall], by simp [cH], by simp⟩
  | generate k =>
    rw [hb] at h1
    simp only at h1
    obtain ⟨a, b, t1, e1, pa, sb, pb, ib, gb, cb, db⟩ := generateAndInstall_frame h1
    refine ⟨evsH ++ a, b ++ [.closeHost host], by simp [t1, tH], by simp [e1, eH], ?_, ?_, ?_,
      ?_, ?_, ?_, ?_⟩
    · intro e he
      rcases List.mem_append.1 he with he1 | he1
      · exact qH e he1
      · refine ⟨(pa e he1).1, ?_⟩
        intro h n r heq
        have hk := (pa e he1).2.2.2 h n r heq
        subst hk
        exact selectBranch_generate_plugin env _ n w0 hb
    · rintro ⟨e, he, hp⟩
      rcases List.mem_append.1 he with he1 | he1
      · obtain ⟨g, hg, hs⟩ := sb (List.ne_nil_of_mem he1)
        exact ⟨g, List.mem_append_right _ hg, hs⟩
      · simp at he1
        subst he1
        simp [Event.isPostGeneration] at hp
    · intro e he
      rcases List.mem_append.1 he with he1 | he1
      · exact postGeneration_not_generator e (pb e he1)
      · simp at he1
        subst he1
        rfl
    · simpa [List.countP_append, Event.isInstall] using ib
    · intro hg e he
      rcases List.mem_append.1 he with he1 | he1
      · exact gb hg e he1
      · simp at he1
        subst he1
        rfl
    · intro hc
      have := cb (fun e he => hc e (List.mem_append_left _ he))
      simp [this, cH]
    · intro d r hm
      have hm2 : Event.chdir d r ∈ b := by simpa using hm
      simpa using db d r hm2

theorem runConvert_unsupported (env : Env) (sourceDir language outDir : String)
    (generateOnly : Bool) (w : World)
    (hlang : language = "pcl" ∨ language = "pulumi")
    (hdev : env.isTruthy (w.environ "PULUMI_DEV") = false) :
    (∀ host w0, newPluginHost env w = (.ok host, w0) →
      (runConvert env sourceDir language outDir generateOnly w).1
        = some (.errorf "cannot generate programs for " language " language")) ∧
    (∃ evs, (runConvert env sourceDir language outDir generateOnly w).2.trace = w.trace ++ evs ∧
      ∀ e ∈ evs, e.isHostLifecycle = true) := by
  obtain ⟨evs, htr, hev, _, henv⟩ := newPluginHost_frame env w
  have htl : translateLanguage language = language := by
    rcases hlang with rfl | rfl <;> simp [translateLanguage]
  have hsel : selectBranch env language (newPluginHost env w).2 = .unsupported := by
    rcases hlang with rfl | rfl <;> simp [selectBranch, henv, hdev]
  cases h0 : newPluginHost env w with
  | mk r0 w0 =>
  rw [h0] at htr hsel
  simp only at htr hsel
  cases r0 with
  | error err =>
    refine ⟨by simp, evs, ?_, hev⟩
    simp [runConvert, h0, htr]
  | ok host =>
    refine ⟨?_, evs ++ [.closeHost host], ?_, ?_⟩
    · intro host' w0' _
      simp [runConvert, h0, runConvertWithHost, htl, hsel]
    · simp [runConvert, h0, runConvertWithHost, htl, hsel, htr]
    · intro e he
      rcases List.mem_append.1 he with h | h
      · exact hev e h
      · simp at h
        subst h
        rfl

/-! ## The claims -/

/-- C1.  With `PULUMI_DEV` truthy and the target `pcl`: when the plugin host is created, the
template loads without error diagnostics and converts to the text `t`, and the output
directory and the file are written without error, `runConvert` returns `nil`; the run made
exactly the calls listed, so it wrote exactly one file, `path.Join(outDir, "main.pp")`, with
content `t`, called no project generator, never changed the working directory and never
called the dependency installer. -/
theorem runConvert_pcl_dev_writes_main_pp
    (env : Env) (sourceDir outDir : String) (generateOnly : Bool)
    (w w0 w1 w2 w3 w4 : World) (host : Host) (template : Template)
    (diags diags2 : List Diagnostic) (t : String)
    (hdev : env.isTruthy (w.environ "PULUMI_DEV") = true)
    (hhost : newPluginHost env w = (.ok host, w0))
    (hload : yamlgenLoadTemplate env sourceDir w0 = (⟨template, diags, none⟩, w1))
    (hdiags : HasErrors diags = false)
    (hconv : yamlgenConvertTemplateIL env template (schemaNewPluginLoader host) w1
      = (⟨t, diags2, none⟩, w2))
    (hmk : mkdirOutDir env outDir w2 = (none, w3))
    (hwrite : ioutilWriteFile env (env.pathJoin outDir "main.pp") t 0o600 w3 = (none, w4)) :
    (runConvert env sourceDir "pcl" outDir generateOnly w).1 = none ∧
    eventsSince w (runConvert env sourceDir "pcl" outDir generateOnly w).2 =
      [.getwd ⟨w.cwd, none⟩, .newContext w.cwd ⟨host, none⟩,
       .loadTemplate sourceDir ⟨template, diags, none⟩,
       .convertTemplateIL template (schemaNewPluginLoader host) ⟨t, diags2, none⟩] ++
      (if outDir ≠ "." then [Event.mkdirAll outDir 0o755 none] else []) ++
      [.writeFile (env.pathJoin outDir "main.pp") t 0o600 none, .closeHost host] ∧
    (eventsSince w (runConvert env sourceDir "pcl" outDir generateOnly w).2).filter
      Event.isFileWrite = [.writeFile (env.pathJoin outDir "main.pp") t 0o600 none] ∧
    (∀ e ∈ eventsSince w (runConvert env sourceDir "pcl" outDir generateOnly w).2,
      e.isGenerator = false ∧ e.isChdir = false ∧ e.isInstall = false) ∧
    (runConvert env sourceDir "pcl" outDir generateOnly w).2.cwd = w.cwd := by
  obtain ⟨t0, c0, e0⟩ := newPluginHost_ok hhost
  obtain ⟨t1, c1, _⟩ := yamlgenLoadTemplate_ok hload
  obtain ⟨t2, c2, _⟩ := yamlgenConvertTemplateIL_ok hconv
  obtain ⟨t3, c3, _⟩ := mkdirOutDir_ok hmk
  obtain ⟨t4, c4, _⟩ := ioutilWriteFile_ok hwrite
  have hrun : runConvert env sourceDir "pcl" outDir generateOnly w
      = (none, contractIgnoreClose host w4) := by
    simp [runConvert, hhost, runConvertWithHost, translateLanguage, selectBranch, e0, hdev,
      runConvertPcl, hload, hdiags, hconv, hmk, hwrite]
  have htr : (contractIgnoreClose host w4).trace = w.trace ++
      ([.getwd ⟨w.cwd, none⟩, .newContext w.cwd ⟨host, none⟩,
       .loadTemplate sourceDir ⟨template, diags, none⟩,
       .convertTemplateIL template (schemaNewPluginLoader host) ⟨t, diags2, none⟩] ++
      (if outDir ≠ "." then [Event.mkdirAll outDir 0o755 none] else []) ++
      [.writeFile (env.pathJoin outDir "main.pp") t 0o600 none, .closeHost host]) := by
    simp [contractIgnoreClose, t4, t3, t2, t1, t0]
  rw [hrun]
  simp only [eventsSince_of_trace htr]
  refine ⟨trivial, trivial, ?_, ?_, ?_⟩
  · by_cases hd : outDir = "." <;> simp [hd, Event.isFileWrite]
  · by_cases hd : outDir = "." <;>
      simp [hd, Event.isGenerator, Event.isChdir, Event.isInstall]
  · simp [contractIgnoreClose, c4, c3, c2, c1, c0]

/-- Witness of C1: the sample environment, in development mode, converting `src` to `pcl`
into `out`. -/
theorem runConvert_pcl_dev_writes_main_pp_witness :
    (runConvert sampleEnv "src" "pcl" "out" true devWorld).1 = none ∧
    (eventsSince devWorld (runConvert sampleEnv "src" "pcl" "out" true devWorld).2).filter
      Event.isFileWrite = [.writeFile "out/main.pp" "key = readFile(\"key.pub\")" 0o600 none] :=
  let w0 := (newPluginHost sampleEnv devWorld).2
  let w1 := (yamlgenLoadTemplate sampleEnv "src" w0).2
  let w2 := (yamlgenConvertTemplateIL sampleEnv ⟨1⟩ ⟨⟨1⟩⟩ w1).2
  let w3 := (mkdirOutDir sampleEnv "out" w2).2
  let w4 := (ioutilWriteFile sampleEnv "out/main.pp" "key = readFile(\"key.pub\")" 0o600 w3).2
  have h := runConvert_pcl_dev_writes_main_pp sampleEnv "src" "out" true devWorld
    w0 w1 w2 w3 w4 ⟨1⟩ ⟨1⟩ [] [] "key = readFile(\"key.pub\")"
    (by decide) rfl rfl rfl rfl rfl rfl
  ⟨h.1, h.2.2.1⟩

/-- C2.  With `PULUMI_DEV` not truthy and the target `pcl` or `pulumi`, `runConvert` returns
an error (the error "cannot generate programs" once the plugin host exists); the only calls
of the run create and close the plugin host, so no directory is created, no file is written
and neither the loader, a generator nor the installer runs.  And whatever the language, the
second `switch` takes the arm that returns through `runConvertPcl` only if `PULUMI_DEV` is
truthy. -/
theorem runConvert_ir_only_without_dev
    (env : Env) (sourceDir language outDir : String) (generateOnly : Bool) (w : World)
    (hlang : language = "pcl" ∨ language = "pulumi")
    (hdev : env.isTruthy (w.environ "PULUMI_DEV") = false) :
    (runConvert env sourceDir language outDir generateOnly w).1 ≠ none ∧
    (∀ host w0, newPluginHost env w = (.ok host, w0) →
      (runConvert env sourceDir language outDir generateOnly w).1
        = some (.errorf "cannot generate programs for " language " language")) ∧
    (∃ evs, (runConvert env sourceDir language outDir generateOnly w).2.trace = w.trace ++ evs ∧
      ∀ e ∈ evs, e.isHostLifecycle = true ∧ e.isFilesystemWrite = false ∧
        e.isLoader = false ∧ e.isGenerator = false ∧ e.isInstall = false) ∧
    (∀ (l : String) (w0 : World), selectBranch env (translateLanguage l) w0 = .fastPath →
      env.isTruthy (w0.environ "PULUMI_DEV") = true) := by
  obtain ⟨evs, htr, hev, _, henv⟩ := newPluginHost_frame env w
  have hsel : selectBranch env (translateLanguage language) (newPluginHost env w).2
      = .unsupported := by
    rcases hlang with rfl | rfl <;> simp [translateLanguage, selectBranch, henv, hdev]
  have htl : translateLanguage language = language := by
    rcases hlang with rfl | rfl <;> simp [translateLanguage]
  refine ⟨?_, ?_, ?_, fun l w0 h => (selectBranch_fastPath env _ w0 h).2⟩
  · unfold runConvert
    split
    · simp
    · rename_i heq
      have h2 : (newPluginHost env w).2 = _ := congrArg Prod.snd heq
      simp only at h2
      rw [h2] at hsel
      simp [runConvertWithHost, hsel]
  · intro host w0 heq
    rw [heq] at hsel
    simp only [htl] at hsel
    simp [runConvert, heq, runConvertWithHost, hsel, htl]
  · unfold runConvert
    split
    · rename_i heq
      have h2 : (newPluginHost env w).2 = _ := congrArg Prod.snd heq
      simp only at h2
      rw [h2] at htr
      exact ⟨evs, htr, fun e he => ⟨hev e he, (hostLifecycle_excludes e (hev e he)).1,
        (hostLifecycle_excludes e (hev e he)).2.1, (hostLifecycle_excludes e (hev e he)).2.2.1,
        (hostLifecycle_excludes e (hev e he)).2.2.2.1⟩⟩
    · rename_i host w0 heq
      have h2 : (newPluginHost env w).2 = _ := congrArg Prod.snd heq
      simp only at h2
      rw [h2] at htr hsel
      refine ⟨evs ++ [.closeHost host], ?_, ?_⟩
      · simp [runConvertWithHost, hsel, contractIgnoreClose, htr]
      · intro e he
        have he2 : e.isHostLifecycle = true := by
          rcases List.mem_append.1 he with h | h
          · exact hev e h
          · simp at h
            subst h
            rfl
        exact ⟨he2, (hostLifecycle_excludes e he2).1,
          (hostLifecycle_excludes e he2).2.1, (hostLifecycle_excludes e he2).2.2.1,
          (hostLifecycle_excludes e he2).2.2.2.1⟩

/-- Witness of C2: the sample environment outside development mode, target `pcl`. -/
theorem runConvert_ir_only_without_dev_witness :
    (runConvert sampleEnv "src" "pcl" "out" false plainWorld).1
      = some (.errorf "cannot generate programs for " "pcl" " language") :=
  (runConvert_ir_only_without_dev sampleEnv "src" "pcl" "out" false plainWorld
    (Or.inl rfl) (by decide)).2.1 ⟨1⟩ (newPluginHost sampleEnv plainWorld).2 rfl

/-- C3.  The targets `csharp`, `c#` and `dotnet` give the same run: `runConvert` returns the
same result and leaves the same world, hence the same transcript of calls with the same
arguments; the three take the arm of the `switch` that assigns the plugin closure for
`dotnet`, and every plugin lookup of the run asks for `dotnet`.  The translation is applied
before the `switch`, so a run on `l` is the run on the translated `l`, and translating twice
changes nothing. -/
theorem runConvert_csharp_aliases
    (env : Env) (sourceDir outDir : String) (generateOnly : Bool) (w : World) :
    runConvert env sourceDir "csharp" outDir generateOnly w
      = runConvert env sourceDir "dotnet" outDir generateOnly w ∧
    runConvert env sourceDir "c#" outDir generateOnly w
      = runConvert env sourceDir "dotnet" outDir generateOnly w ∧
    (∀ w0 : World,
      selectBranch env (translateLanguage "csharp") w0 = .generate (.plugin "dotnet") ∧
      selectBranch env (translateLanguage "c#") w0 = .generate (.plugin "dotnet") ∧
      selectBranch env (translateLanguage "dotnet") w0 = .generate (.plugin "dotnet")) ∧
    (∀ h n r, Event.languageRuntime h n r ∈
        eventsSince w (runConvert env sourceDir "csharp" outDir generateOnly w).2 →
      n = "dotnet") ∧
    (∀ l : String, runConvert env sourceDir l outDir generateOnly w
      = runConvert env sourceDir (translateLanguage l) outDir generateOnly w) ∧
    (∀ l : String, translateLanguage (translateLanguage l) = translateLanguage l) := by
  have hidem : ∀ l : String, translateLanguage (translateLanguage l) = translateLanguage l := by
    intro l
    by_cases h1 : l = "csharp"
    · subst h1
      simp [translateLanguage]
    by_cases h2 : l = "c#"
    · subst h2
      simp [translateLanguage]
    have h3 : translateLanguage l = l := by
      unfold translateLanguage
      split <;> simp_all
    simp [h3]
  refine ⟨?_, ?_, ?_, ?_, ?_, hidem⟩
  · simp [runConvert, runConvertWithHost, translateLanguage]
  · simp [runConvert, runConvertWithHost, translateLanguage]
  · intro w0
    simp [translateLanguage, selectBranch]
  · intro h n r hm
    cases hrun : runConvert env sourceDir "csharp" outDir generateOnly w with
    | mk res w' =>
    rw [hrun] at hm
    obtain ⟨a, b, t, _, pa, _, pb, _⟩ := runConvert_frame hrun
    rw [eventsSince_of_trace t] at hm
    rcases List.mem_append.1 hm with hm1 | hm1
    · have := (pa _ hm1).2 h n r rfl
      simpa [translateLanguage] using this
    · have := pb _ hm1
      simp [Event.isGenerator] at this
  · intro l
    simp [runConvert, runConvertWithHost, hidem]

/-- C4.  A target whose translated name is none of `go`, `typescript`, `python`, `java`,
`yaml`, `pulumi`, `pcl` always takes the `default` arm, which assigns the plugin closure for
that name: the `switch` itself never fails.  When the plugin host, the output directory, the
ejected program and the template text are all obtained without error, the run asks the host
for the language runtime of exactly the translated name; and if that lookup fails with `e`,
`runConvert` returns `e` wrapped in "could not generate output program", the plugin's
`GenerateProject` is not called and nothing of lines 210-236 runs. -/
theorem runConvert_plugin_lookup
    (env : Env) (sourceDir language outDir : String) (generateOnly : Bool)
    (w w0 w1 w2 w3 w4 w5 : World) (host : Host) (proj : Project) (pclProgram : Program)
    (template : Template) (diags diags2 : List Diagnostic) (programText : String)
    (r : LanguageRuntimeResult)
    (hlang : translateLanguage language ∉
      ["go", "typescript", "python", "java", "yaml", "pulumi", "pcl"])
    (hhost : newPluginHost env w = (.ok host, w0))
    (hmk : mkdirOutDir env outDir w0 = (none, w1))
    (heject : yamlgenEject env sourceDir (schemaNewPluginLoader host) w1
      = (⟨proj, pclProgram, none⟩, w2))
    (hload : yamlgenLoadTemplate env sourceDir w2 = (⟨template, diags, none⟩, w3))
    (hdiags : HasErrors diags = false)
    (hconv : yamlgenConvertTemplateIL env template (schemaNewPluginLoader host) w3
      = (⟨programText, diags2, none⟩, w4))
    (hdiags2 : HasErrors diags2 = false)
    (hlookup : hostLanguageRuntime env host (translateLanguage language) w4 = (r, w5)) :
    (∀ w' : World, selectBranch env (translateLanguage language) w'
      = .generate (.plugin (translateLanguage language))) ∧
    Event.languageRuntime host (translateLanguage language) r ∈
      eventsSince w (runConvert env sourceDir language outDir generateOnly w).2 ∧
    (∀ e, r.err = some e →
      runConvert env sourceDir language outDir generateOnly w
        = (some (.wrap "could not generate output program" e), contractIgnoreClose host w5) ∧
      (GoError.wrap "could not generate output program" e).carries e = true ∧
      eventsSince w (contractIgnoreClose host w5) =
        [.getwd ⟨w.cwd, none⟩, .newContext w.cwd ⟨host, none⟩] ++
        (if outDir ≠ "." then [Event.mkdirAll outDir 0o755 none] else []) ++
        [.eject sourceDir (schemaNewPluginLoader host) ⟨proj, pclProgram, none⟩,
         .loadTemplate sourceDir ⟨template, diags, none⟩,
         .convertTemplateIL template (schemaNewPluginLoader host) ⟨programText, diags2, none⟩,
         .languageRuntime host (translateLanguage language) r,
         .closeHost host]) := by
  have hsel : ∀ w' : World, selectBranch env (translateLanguage language) w'
      = .generate (.plugin (translateLanguage language)) := by
    intro w'
    simp at hlang
    unfold selectBranch
    split <;> simp_all
  obtain ⟨t0, c0, e0⟩ := newPluginHost_ok hhost
  obtain ⟨t1, c1, _⟩ := mkdirOutDir_ok hmk
  obtain ⟨t2, c2, _⟩ := yamlgenEject_ok heject
  obtain ⟨t3, c3, _⟩ := yamlgenLoadTemplate_ok hload
  obtain ⟨t4, c4, _⟩ := yamlgenConvertTemplateIL_ok hconv
  obtain ⟨t5, c5, _⟩ := hostLanguageRuntime_ok hlookup
  have htr5 : w5.trace = w.trace ++
      ([.getwd ⟨w.cwd, none⟩, .newContext w.cwd ⟨host, none⟩] ++
        (if outDir ≠ "." then [Event.mkdirAll outDir 0o755 none] else []) ++
        [.eject sourceDir (schemaNewPluginLoader host) ⟨proj, pclProgram, none⟩,
         .loadTemplate sourceDir ⟨template, diags, none⟩,
         .convertTemplateIL template (schemaNewPluginLoader host) ⟨programText, diags2, none⟩,
         .languageRuntime host (translateLanguage language) r]) := by
    simp [t5, t4, t3, t2, t1, t0]
  refine ⟨hsel, ?_, ?_⟩
  · cases hrun : runConvert env sourceDir language outDir generateOnly w with
    | mk res w' =>
    simp only
    have hrun2 := hrun
    simp only [runConvert, hhost, runConvertWithHost, hsel, generateAndInstall, hmk, heject]
      at hrun2
    cases hpg : projectGenerator env host sourceDir (.plugin (translateLanguage language))
      outDir proj pclProgram w2 with
    | mk rg wg =>
    have hext : ∃ evs, wg.trace = w5.trace ++ evs := by
      have hpg2 := hpg
      simp only [projectGenerator, hload, hdiags, hconv, hdiags2, hlookup] at hpg2
      obtain ⟨lp, _ | err⟩ := r
      swap
      · simp at hpg2
        exact ⟨[], by simp [hpg2.2.symm]⟩
      simp only [Bool.false_eq_true, if_false] at hpg2
      cases hm : env.jsonMarshal proj with
      | mk bytes merr =>
      rw [hm] at hpg2
      cases merr with
      | some err =>
        simp at hpg2
        exact ⟨[], by simp [hpg2.2.symm]⟩
      | none =>
        simp only at hpg2
        cases hgp : languagePluginGenerateProject env lp outDir bytes programText w5 with
        | mk rp wp =>
        obtain ⟨tp, _, _⟩ := languagePluginGenerateProject_ok hgp
        rw [hgp] at hpg2
        cases rp <;> simp at hpg2 <;> exact ⟨_, by rw [← hpg2.2, tp]⟩
    obtain ⟨evs, hevs⟩ := hext
    rw [hpg] at hrun2
    have hfin : ∃ evs2, w'.trace = wg.trace ++ evs2 := by
      cases rg with
      | some err =>
        simp at hrun2
        exact ⟨[.closeHost host], by rw [← hrun2.2]; rfl⟩
      | none =>
        simp only at hrun2
        cases hpost : postGenerate env outDir generateOnly wg with
        | mk rp wp =>
        obtain ⟨evs3, t3, _⟩ := postGenerate_frame hpost
        rw [hpost] at hrun2
        simp at hrun2
        exact ⟨evs3 ++ [.closeHost host], by rw [← hrun2.2]; simp [t3]⟩
    obtain ⟨evs2, hevs2⟩ := hfin
    obtain ⟨l, hl⟩ : ∃ l, w5.trace = w.trace ++
        (l ++ [Event.languageRuntime host (translateLanguage language) r]) :=
      ⟨[.getwd ⟨w.cwd, none⟩, .newContext w.cwd ⟨host, none⟩] ++
        (if outDir ≠ "." then [Event.mkdirAll outDir 0o755 none] else []) ++
        [.eject sourceDir (schemaNewPluginLoader host) ⟨proj, pclProgram, none⟩,
         .loadTemplate sourceDir ⟨template, diags, none⟩,
         .convertTemplateIL template (schemaNewPluginLoader host) ⟨programText, diags2, none⟩],
        by rw [htr5]; simp⟩
    have : w'.trace = w.trace ++
        ((l ++ [Event.languageRuntime host (translateLanguage language) r]) ++ (evs ++ evs2)) := by
      rw [hevs2, hevs, hl]
      simp only [List.append_assoc]
    rw [eventsSince_of_trace this]
    simp
  · intro e he
    obtain ⟨lp, rerr⟩ := r
    simp at he
    subst he
    refine ⟨?_, ?_, ?_⟩
    · simp [runConvert, hhost, runConvertWithHost, hsel, generateAndInstall, hmk, heject,
        projectGenerator, hload, hdiags, hconv, hdiags2, hlookup]
    · simp [GoError.carries, GoError.carries_self]
    · refine eventsSince_of_trace ?_
      rw [contractIgnoreClose_trace, htr5]
      simp

/-- Witness of C4: in the sample environment without plugins, target `csharp`, the lookup of
`dotnet` fails and its error comes back wrapped. -/
theorem runConvert_plugin_lookup_witness :
    runConvert noPluginEnv "src" "csharp" "out" false plainWorld
      = (some (.wrap "could not generate output program"
          (.leaf "could not find language plugin dotnet")),
        { plainWorld with trace :=
          [.getwd ⟨"/work", none⟩, .newContext "/work" ⟨⟨1⟩, none⟩,
           .mkdirAll "out" 0o755 none,
           .eject "src" ⟨⟨1⟩⟩ ⟨⟨"demo", ⟨"yaml"⟩⟩, ⟨1⟩, none⟩,
           .loadTemplate "src" ⟨⟨1⟩, [], none⟩,
           .convertTemplateIL ⟨1⟩ ⟨⟨1⟩⟩ ⟨"key = readFile(\"key.pub\")", [], none⟩,
           .languageRuntime ⟨1⟩ "dotnet"
             ⟨⟨0⟩, some (.leaf "could not find language plugin dotnet")⟩,
           .closeHost ⟨1⟩] }) :=
  let w0 := (newPluginHost noPluginEnv plainWorld).2
  let w1 := (mkdirOutDir noPluginEnv "out" w0).2
  let w2 := (yamlgenEject noPluginEnv "src" ⟨⟨1⟩⟩ w1).2
  let w3 := (yamlgenLoadTemplate noPluginEnv "src" w2).2
  let w4 := (yamlgenConvertTemplateIL noPluginEnv ⟨1⟩ ⟨⟨1⟩⟩ w3).2
  let w5 := (hostLanguageRuntime noPluginEnv ⟨1⟩ "dotnet" w4).2
  ((runConvert_plugin_lookup noPluginEnv "src" "csharp" "out" false plainWorld w0 w1 w2 w3 w4
    w5 ⟨1⟩ ⟨"demo", ⟨"yaml"⟩⟩ ⟨1⟩ ⟨1⟩ [] [] "key = readFile(\"key.pub\")"
    ⟨⟨0⟩, some (.leaf "could not find language plugin dotnet")⟩
    (by decide) rfl rfl rfl rfl rfl rfl rfl rfl).2.2
    (.leaf "could not find language plugin dotnet") rfl).1

/-- C5.  For a registry or plugin target, once the plugin host, the output directory and the
ejected program are obtained: if the call of the selected generator returns the error `m`,
`runConvert` returns `m` wrapped in the context "could not generate output program", whose
message is that context, a colon and the unchanged message of `m`; after the generator only
the deferred close of the host happens, so the run changes no working directory, reads no
project, builds no context and installs nothing. -/
theorem runConvert_generator_error
    (env : Env) (sourceDir language outDir : String) (generateOnly : Bool)
    (w w0 w1 w2 w3 : World) (host : Host) (k : GeneratorKind) (proj : Project)
    (pclProgram : Program) (m : GoError)
    (hhost : newPluginHost env w = (.ok host, w0))
    (hsel : selectBranch env (translateLanguage language) w0 = .generate k)
    (hmk : mkdirOutDir env outDir w0 = (none, w1))
    (heject : yamlgenEject env sourceDir (schemaNewPluginLoader host) w1
      = (⟨proj, pclProgram, none⟩, w2))
    (hgen : projectGenerator env host sourceDir k outDir proj pclProgram w2 = (some m, w3)) :
    runConvert env sourceDir language outDir generateOnly w
      = (some (.wrap "could not generate output program" m), contractIgnoreClose host w3) ∧
    (∀ r : Rendering, (GoError.wrap "could not generate output program" m).Error r
      = "could not generate output program: " ++ m.Error r) ∧
    eventsSince w3 (contractIgnoreClose host w3) = [.closeHost host] ∧
    (∀ e ∈ eventsSince w (contractIgnoreClose host w3),
      e.isPostGeneration = false ∧ e.isInstall = false ∧ e.isChdir = false) ∧
    (contractIgnoreClose host w3).cwd = w.cwd := by
  obtain ⟨t0, c0, _⟩ := newPluginHost_ok hhost
  obtain ⟨t1, c1, _⟩ := mkdirOutDir_ok hmk
  obtain ⟨t2, c2, _⟩ := yamlgenEject_ok heject
  obtain ⟨evs, t3, c3, _, p3, _⟩ := projectGenerator_frame hgen
  refine ⟨?_, ?_, ?_, ?_, ?_⟩
  · simp [runConvert, hhost, runConvertWithHost, hsel, generateAndInstall, hmk, heject, hgen]
  · intro r
    simp [GoError.Error, String.append_assoc]
  · exact eventsSince_of_trace (contractIgnoreClose_trace host w3)
  · have : (contractIgnoreClose host w3).trace = w.trace ++
        ([.getwd ⟨w.cwd, none⟩, .newContext w.cwd ⟨host, none⟩] ++
        (if outDir ≠ "." then [Event.mkdirAll outDir 0o755 none] else []) ++
        [.eject sourceDir (schemaNewPluginLoader host) ⟨proj, pclProgram, none⟩] ++ evs ++
        [.closeHost host]) := by
      simp [t3, t2, t1, t0]
    rw [eventsSince_of_trace this]
    intro e he
    have hpost : e.isPostGeneration = false := by
      simp only [List.mem_append] at he
      rcases he with (((he | he) | he) | he) | he
      · simp at he
        rcases he with rfl | rfl <;> rfl
      · by_cases hd : outDir = "."
        · simp [hd] at he
        · simp [hd] at he
          subst he
          rfl
      · simp at he
        subst he
        rfl
      · exact (p3 e he).1
      · simp at he
        subst he
        rfl
    refine ⟨hpost, ?_, ?_⟩
    · cases e <;> simp_all [Event.isPostGeneration, Event.isInstall]
    · cases e <;> simp_all [Event.isPostGeneration, Event.isChdir]
  · simp [c3, c2, c1, c0]

/-- Witness of C5: in the sample environment whose generators fail, target `go`. -/
theorem runConvert_generator_error_witness :
    (runConvert failingGeneratorEnv "src" "go" "out" false plainWorld).1
      = some (.wrap "could not generate output program" (.leaf "unsupported resource")) :=
  let w0 := (newPluginHost failingGeneratorEnv plainWorld).2
  let w1 := (mkdirOutDir failingGeneratorEnv "out" w0).2
  let w2 := (yamlgenEject failingGeneratorEnv "src" ⟨⟨1⟩⟩ w1).2
  let w3 := (projectGenerator failingGeneratorEnv ⟨1⟩ "src" (.registry .gogen) "out"
    ⟨"demo", ⟨"yaml"⟩⟩ ⟨1⟩ w2).2
  congrArg Prod.fst (runConvert_generator_error failingGeneratorEnv "src" "go" "out" false
    plainWorld w0 w1 w2 w3 ⟨1⟩ (.registry .gogen) ⟨"demo", ⟨"yaml"⟩⟩ ⟨1⟩
    (.leaf "unsupported resource") rfl rfl rfl rfl rfl).1

/-- C6, as stated, fails.  The source directory of `missingSourceEnv` holds no program, so
`LoadTemplate` and `Eject` fail whenever they are called; yet the run for the target `pcl`
outside development mode returns the error "cannot generate programs", which is not the
loader's error and does not wrap it, and the loader is never called. -/
theorem runConvert_loader_fails_counterexample :
    (∀ (w : World) (l : Loader), (missingSourceEnv.eject w "src" l).err
      = some (.leaf "no Pulumi.yaml project file found")) ∧
    (∀ w : World, (missingSourceEnv.loadTemplate w "src").err
      = some (.leaf "no Pulumi.yaml project file found")) ∧
    (runConvert missingSourceEnv "src" "pcl" "out" false plainWorld).1
      = some (.errorf "cannot generate programs for " "pcl" " language") ∧
    (¬ ∃ err, (runConvert missingSourceEnv "src" "pcl" "out" false plainWorld).1 = some err ∧
      err.carries (.leaf "no Pulumi.yaml project file found") = true) ∧
    (∀ e ∈ eventsSince plainWorld
        (runConvert missingSourceEnv "src" "pcl" "out" false plainWorld).2,
      e.isLoader = false) := by
  have hrun : runConvert missingSourceEnv "src" "pcl" "out" false plainWorld
      = (some (.errorf "cannot generate programs for " "pcl" " language"),
        { plainWorld with trace :=
          [.getwd ⟨"/work", none⟩, .newContext "/work" ⟨⟨1⟩, none⟩, .closeHost ⟨1⟩] }) := rfl
  refine ⟨fun _ _ => rfl, fun _ => rfl, by rw [hrun], ?_, ?_⟩
  · rw [hrun]
    rintro ⟨err, h1, h2⟩
    simp at h1
    subst h1
    simp [GoError.carries] at h2
  · rw [hrun]
    simp [eventsSince, plainWorld, Event.isLoader]

/-- C6, amended.  When the source loader fails on `sourceDir` (`Eject` and `LoadTemplate`
return an error whenever called), `runConvert` returns an error and no project generator is
called, whatever the target.  Once the plugin host exists the error is the loader's: on the
fast path it is the error of `LoadTemplate`; for a registry or plugin target, when the output
directory is created, it is the error of `Eject` wrapped in "could not load yaml program".
For the target `pcl` or `pulumi` with `PULUMI_DEV` not truthy the loader is not run: no
`LoadTemplate`, `ConvertTemplateIL` or `Eject` call is made, and once the plugin host exists
the error is "cannot generate programs". -/
theorem runConvert_loader_fails
    (env : Env) (sourceDir language outDir : String) (generateOnly : Bool) (w : World)
    (hEject : ∀ (w' : World) (l : Loader), (env.eject w' sourceDir l).err ≠ none)
    (hLoad : ∀ w' : World, (env.loadTemplate w' sourceDir).err ≠ none) :
    (runConvert env sourceDir language outDir generateOnly w).1 ≠ none ∧
    (∀ e ∈ eventsSince w (runConvert env sourceDir language outDir generateOnly w).2,
      e.isGenerator = false) ∧
    (∀ host w0, newPluginHost env w = (.ok host, w0) →
      (selectBranch env (translateLanguage language) w0 = .fastPath →
        (runConvert env sourceDir language outDir generateOnly w).1
          = (env.loadTemplate w0 sourceDir).err) ∧
      (∀ k w1, selectBranch env (translateLanguage language) w0 = .generate k →
        mkdirOutDir env outDir w0 = (none, w1) →
        ∃ e, (env.eject w1 sourceDir (schemaNewPluginLoader host)).err = some e ∧
          (runConvert env sourceDir language outDir generateOnly w).1
            = some (.wrap "could not load yaml program" e) ∧
          (GoError.wrap "could not load yaml program" e).carries e = true)) ∧
    ((language = "pcl" ∨ language = "pulumi") →
      env.isTruthy (w.environ "PULUMI_DEV") = false →
      (∀ e ∈ eventsSince w (runConvert env sourceDir language outDir generateOnly w).2,
        e.isLoader = false) ∧
      (∀ host w0, newPluginHost env w = (.ok host, w0) →
        (runConvert env sourceDir language outDir generateOnly w).1
          = some (.errorf "cannot generate programs for " language " language"))) := by
  have hD :
      ((language = "pcl" ∨ language = "pulumi") →
        env.isTruthy (w.environ "PULUMI_DEV") = false →
        (∀ e ∈ eventsSince w (runConvert env sourceDir language outDir generateOnly w).2,
          e.isLoader = false) ∧
        (∀ host w0, newPluginHost env w = (.ok host, w0) →
          (runConvert env sourceDir language outDir generateOnly w).1
            = some (.errorf "cannot generate programs for " language " language"))) := by
    intro hlang hdev
    obtain ⟨herr, evs, htr, hev⟩ :=
      runConvert_unsupported env sourceDir language outDir generateOnly w hlang hdev
    refine ⟨?_, herr⟩
    rw [eventsSince_of_trace htr]
    exact fun e he => (hostLifecycle_excludes e (hev e he)).2.1
  suffices hABC :
      (runConvert env sourceDir language outDir generateOnly w).1 ≠ none ∧
      (∀ e ∈ eventsSince w (runConvert env sourceDir language outDir generateOnly w).2,
        e.isGenerator = false) ∧
      (∀ host w0, newPluginHost env w = (.ok host, w0) →
        (selectBranch env (translateLanguage language) w0 = .fastPath →
          (runConvert env sourceDir language outDir generateOnly w).1
            = (env.loadTemplate w0 sourceDir).err) ∧
        (∀ k w1, selectBranch env (translateLanguage language) w0 = .generate k →
          mkdirOutDir env outDir w0 = (none, w1) →
          ∃ e, (env.eject w1 sourceDir (schemaNewPluginLoader host)).err = some e ∧
            (runConvert env sourceDir language outDir generateOnly w).1
              = some (.wrap "could not load yaml program" e) ∧
            (GoError.wrap "could not load yaml program" e).carries e = true)) from
    ⟨hABC.1, hABC.2.1, hABC.2.2, hD⟩
  have hpcl : ∀ host w0, ∃ r w1, runConvertPcl env host sourceDir outDir w0 = (r, w1) ∧
      r = (env.loadTemplate w0 sourceDir).err ∧ r ≠ none := by
    intro host w0
    have hl := hLoad w0
    cases hlt : env.loadTemplate w0 sourceDir with
    | mk template diags err =>
    rw [hlt] at hl
    cases err with
    | none => simp at hl
    | some err =>
      exact ⟨some err, w0.log (.loadTemplate sourceDir ⟨template, diags, some err⟩),
        by simp [runConvertPcl, yamlgenLoadTemplate, hlt], rfl, by simp⟩
  have hgen : ∀ host k w0, ∃ r w1,
      generateAndInstall env host sourceDir k outDir generateOnly w0 = (r, w1) ∧ r ≠ none ∧
      (∃ evs, w1.trace = w0.trace ++ evs ∧ ∀ e ∈ evs, e.isGenerator = false) ∧
      (∀ w2, mkdirOutDir env outDir w0 = (none, w2) →
        ∃ e, (env.eject w2 sourceDir (schemaNewPluginLoader host)).err = some e ∧
          r = some (.wrap "could not load yaml program" e)) := by
    intro host k w0
    unfold generateAndInstall
    cases hm : mkdirOutDir env outDir w0 with
    | mk rm wm =>
    obtain ⟨evs0, t0, _, _, p0⟩ := mkdirOutDir_frame hm
    have q0 : ∀ e ∈ evs0, e.isGenerator = false := by
      intro e he
      obtain ⟨err, rfl⟩ := p0 e he
      rfl
    cases rm with
    | some err => exact ⟨_, _, rfl, by simp, ⟨evs0, t0, q0⟩, by simp⟩
    | none =>
    have he := hEject wm (schemaNewPluginLoader host)
    cases hej : env.eject wm sourceDir (schemaNewPluginLoader host) with
    | mk proj prog err =>
    rw [hej] at he
    cases err with
    | none => simp at he
    | some err =>
      refine ⟨some (.wrap "could not load yaml program" err),
        wm.log (.eject sourceDir (schemaNewPluginLoader host) ⟨proj, prog, some err⟩),
        by simp [yamlgenEject, hej], by simp,
        ⟨evs0 ++ [.eject sourceDir (schemaNewPluginLoader host) ⟨proj, prog, some err⟩],
          by simp [t0], ?_⟩, ?_⟩
      · intro e he
        rcases List.mem_append.1 he with h1 | h1
        · exact q0 e h1
        · simp at h1
          subst h1
          rfl
      · intro w2 hw2
        simp at hw2
        subst hw2
        exact ⟨err, by simp [hej], rfl⟩
  obtain ⟨evsH, tH, pH, _, _⟩ := newPluginHost_frame env w
  have qH : ∀ e ∈ evsH, e.isGenerator = false :=
    fun e he => (hostLifecycle_excludes e (pH e he)).2.2.1
  unfold runConvert
  cases h0 : newPluginHost env w with
  | mk r0 w0 =>
  rw [h0] at tH
  simp only at tH
  cases r0 with
  | error err =>
    refine ⟨by simp, ?_, by simp⟩
    simp only
    rw [eventsSince_of_trace tH]
    exact qH
  | ok host =>
  simp only [runConvertWithHost]
  cases hb : selectBranch env (translateLanguage language) w0 with
  | fastPath =>
    obtain ⟨r, w1, hp, hr, hne⟩ := hpcl host w0
    obtain ⟨evs1, t1, _, _, p1⟩ := runConvertPcl_frame hp
    simp only [hp]
    refine ⟨hne, ?_, ?_⟩
    · have : (contractIgnoreClose host w1).trace = w.trace ++ (evsH ++ evs1 ++ [.closeHost host])
          := by simp [t1, tH]
      rw [eventsSince_of_trace this]
      intro e he
      simp only [List.mem_append] at he
      rcases he with (he | he) | he
      · exact qH e he
      · exact (p1 e he).2.1
      · simp at he
        subst he
        rfl
    · intro host' w0' heq
      simp at heq
      obtain ⟨rfl, rfl⟩ := heq
      exact ⟨fun _ => hr, by simp [hb]⟩
  | unsupported =>
    refine ⟨by simp, ?_, ?_⟩
    · have : (contractIgnoreClose host w0).trace = w.trace ++ (evsH ++ [.closeHost host]) := by
        simp [tH]
      simp only
      rw [eventsSince_of_trace this]
      intro e he
      rcases List.mem_append.1 he with he | he
      · exact qH e he
      · simp at he
        subst he
        rfl
    · intro host' w0' heq
      simp at heq
      obtain ⟨rfl, rfl⟩ := heq
      simp [hb]
  | generate k =>
    obtain ⟨r, w1, hg, hne, ⟨evs1, t1, p1⟩, hload⟩ := hgen host k w0
    simp only [hg]
    refine ⟨hne, ?_, ?_⟩
    · have : (contractIgnoreClose host w1).trace = w.trace ++ (evsH ++ evs1 ++ [.closeHost host])
          := by simp [t1, tH]
      rw [eventsSince_of_trace this]
      intro e he
      simp only [List.mem_append] at he
      rcases he with (he | he) | he
      · exact qH e he
      · exact p1 e he
      · simp at he
        subst he
        rfl
    · intro host' w0' heq
      simp at heq
      obtain ⟨rfl, rfl⟩ := heq
      refine ⟨by simp [hb], ?_⟩
      intro k' w2 _ hmk
      obtain ⟨e, he1, he2⟩ := hload w2 hmk
      exact ⟨e, he1, he2, by simp [GoError.carries, GoError.carries_self]⟩

/-- Witness of C6 amended: the sample environment without a source program, target `go`. -/
theorem runConvert_loader_fails_witness :
    (runConvert missingSourceEnv "src" "go" "out" false plainWorld).1 ≠ none ∧
    (∀ e ∈ eventsSince plainWorld
        (runConvert missingSourceEnv "src" "go" "out" false plainWorld).2,
      e.isGenerator = false) :=
  have h := runConvert_loader_fails missingSourceEnv "src" "go" "out" false plainWorld
    (fun _ _ => by simp [missingSourceEnv]) (fun _ => by simp [missingSourceEnv])
  ⟨h.1, h.2.1⟩

/-- C7.  In every run of `runConvert`: with `generateOnly = true` the installer is never
called; in any case it is called at most once; and a call of the installer comes after a
generator call of the same run that returned `nil`. -/
theorem runConvert_install_discipline
    (env : Env) (sourceDir language outDir : String) (generateOnly : Bool) (w : World) :
    (generateOnly = true →
      ∀ e ∈ eventsSince w (runConvert env sourceDir language outDir generateOnly w).2,
        e.isInstall = false) ∧
    (eventsSince w (runConvert env sourceDir language outDir generateOnly w).2).countP
      Event.isInstall ≤ 1 ∧
    (∀ pre e post,
      eventsSince w (runConvert env sourceDir language outDir generateOnly w).2
        = pre ++ e :: post →
      e.isInstall = true → ∃ g ∈ pre, g.isGeneratorSuccess = true) := by
  cases hrun : runConvert env sourceDir language outDir generateOnly w with
  | mk res w' =>
  obtain ⟨a, b, t, _, pa, sb, _, ib, gb, _, _⟩ := runConvert_frame hrun
  simp only
  rw [eventsSince_of_trace t]
  have na : ∀ e ∈ a, e.isInstall = false := by
    intro e he
    cases hi : e.isInstall with
    | false => rfl
    | true =>
      have := install_isPostGeneration e hi
      rw [(pa e he).1] at this
      cases this
  refine ⟨?_, ?_, ?_⟩
  · intro hg e he
    rcases List.mem_append.1 he with h1 | h1
    · exact na e h1
    · exact gb hg e h1
  · have h0 : a.countP Event.isInstall = 0 := by
      rw [List.countP_eq_zero]
      intro e he
      simp [na e he]
    rw [List.countP_append, h0]
    simpa using ib
  · intro pre e post hsplit hi
    have hna : e ∉ a := by
      intro he
      rw [na e he] at hi
      cases hi
    obtain ⟨c, rfl⟩ := prefix_of_split hsplit hna
    have hb : e ∈ b := by
      rw [List.append_assoc] at hsplit
      have := List.append_cancel_left hsplit
      rw [this]
      simp
    obtain ⟨g, hg, hs⟩ := sb ⟨e, hb, install_isPostGeneration e hi⟩
    exact ⟨g, List.mem_append_left _ hg, hs⟩

/-- C8, the defect.  The flag `--generate-only` is documented as "Generate the converted
program(s) only", and lines 210-211 say the block that follows is there to run
`installDependencies` in `outDir`; yet `if !generateOnly` encloses the installer call alone.
In the sample environment, target `go` with `generateOnly = true`, the generator succeeds and
the run still changes into `out`, reads the project and builds the context: the process ends
in `/work/out`.  And when the generated project cannot be read back, the same run returns
the error of `readProject` although generation succeeded. -/
theorem runConvert_generateOnly_runs_post_generation :
    runConvert sampleEnv "src" "go" "out" true plainWorld
      = (none, { plainWorld with
          cwd := "/work/out"
          trace :=
            [.getwd ⟨"/work", none⟩, .newContext "/work" ⟨⟨1⟩, none⟩,
             .mkdirAll "out" 0o755 none,
             .eject "src" ⟨⟨1⟩⟩ ⟨⟨"demo", ⟨"yaml"⟩⟩, ⟨1⟩, none⟩,
             .generateProject .gogen "out" ⟨"demo", ⟨"yaml"⟩⟩ ⟨1⟩ none,
             .chdir "out" ⟨"/work/out", none⟩,
             .readProject ⟨⟨"demo", ⟨"go"⟩⟩, "/work/out", none⟩,
             .projectInfoContext ⟨"demo", ⟨"go"⟩⟩ "/work/out" ⟨"/work/out", ⟨1⟩, none⟩,
             .closeContext ⟨1⟩, .closeHost ⟨1⟩] }) ∧
    runConvert unreadableProjectEnv "src" "go" "out" true plainWorld
      = (some (.leaf "no Pulumi.yaml project file found"), { plainWorld with
          cwd := "/work/out"
          trace :=
            [.getwd ⟨"/work", none⟩, .newContext "/work" ⟨⟨1⟩, none⟩,
             .mkdirAll "out" 0o755 none,
             .eject "src" ⟨⟨1⟩⟩ ⟨⟨"demo", ⟨"yaml"⟩⟩, ⟨1⟩, none⟩,
             .generateProject .gogen "out" ⟨"demo", ⟨"yaml"⟩⟩ ⟨1⟩ none,
             .chdir "out" ⟨"/work/out", none⟩,
             .readProject ⟨⟨"", ⟨""⟩⟩, "", some (.leaf "no Pulumi.yaml project file found")⟩,
             .closeHost ⟨1⟩] }) ∧
    Event.chdir "out" ⟨"/work/out", none⟩ ∈
      eventsSince plainWorld (runConvert sampleEnv "src" "go" "out" true plainWorld).2 ∧
    (runConvert unreadableProjectEnv "src" "go" "out" true plainWorld).1 ≠ none :=
  ⟨rfl, rfl, by decide, by decide⟩

/-- C9, as stated, fails.  In the sample environment, target `go`, the run succeeds and
leaves the process in `/work/out`, not in `/work` where it started; and when the generated
project cannot be read back, the run returns an error and leaves the process in `/work/out`
as well. -/
theorem runConvert_cwd_counterexample :
    plainWorld.cwd = "/work" ∧
    (runConvert sampleEnv "src" "go" "out" false plainWorld).1 = none ∧
    (runConvert sampleEnv "src" "go" "out" false plainWorld).2.cwd = "/work/out" ∧
    (runConvert sampleEnv "src" "go" "out" false plainWorld).2.cwd ≠ plainWorld.cwd ∧
    (runConvert unreadableProjectEnv "src" "go" "out" false plainWorld).1
      = some (.leaf "no Pulumi.yaml project file found") ∧
    (runConvert unreadableProjectEnv "src" "go" "out" false plainWorld).2.cwd
      ≠ plainWorld.cwd :=
  ⟨rfl, rfl, rfl, by decide, rfl, by decide⟩

/-- C9, amended.  `runConvert` never restores the working directory.  On every exit path on
which no `os.Chdir` returned `nil`, the working directory after the call is the one before
the call; every `os.Chdir` of the run is the one into `outDir`, and once it has returned
`nil` the process is left, on success and on error alike, in the directory that call
entered. -/
theorem runConvert_cwd
    (env : Env) (sourceDir language outDir : String) (generateOnly : Bool) (w : World) :
    ((∀ e ∈ eventsSince w (runConvert env sourceDir language outDir generateOnly w).2,
        e.isChdirSuccess = false) →
      (runConvert env sourceDir language outDir generateOnly w).2.cwd = w.cwd) ∧
    (∀ d r, Event.chdir d r ∈
        eventsSince w (runConvert env sourceDir language outDir generateOnly w).2 →
      d = outDir ∧
      (r.err = none → (runConvert env sourceDir language outDir generateOnly w).2.cwd = r.dir))
    := by
  cases hrun : runConvert env sourceDir language outDir generateOnly w with
  | mk res w' =>
  obtain ⟨a, b, t, _, pa, _, _, _, _, cb, db⟩ := runConvert_frame hrun
  simp only
  rw [eventsSince_of_trace t]
  refine ⟨?_, ?_⟩
  · intro h
    exact cb (fun e he => h e (List.mem_append_right _ he))
  · intro d r hm
    rcases List.mem_append.1 hm with h1 | h1
    · have := (pa _ h1).1
      simp [Event.isPostGeneration] at this
    · exact db d r h1

/-- C10, the defect.  `ConvertTemplateIL` returns no error value but an error-level
diagnostic.  `runConvertPcl` does not look at the diagnostics of the conversion: it writes
`main.pp` and returns `nil`, and so does `runConvert` for the target `pcl` in development
mode.  The plugin closure, on the same loader answers, returns the diagnostics as its
error. -/
theorem runConvertPcl_ignores_convert_diagnostics :
    HasErrors [⟨.DiagError, "unknown resource type"⟩] = true ∧
    runConvertPcl convertDiagnosticsEnv ⟨1⟩ "src" "out" devWorld
      = (none, { devWorld with trace :=
          [.loadTemplate "src" ⟨⟨1⟩, [], none⟩,
           .convertTemplateIL ⟨1⟩ ⟨⟨1⟩⟩ ⟨"", [⟨.DiagError, "unknown resource type"⟩], none⟩,
           .mkdirAll "out" 0o755 none,
           .writeFile "out/main.pp" "" 0o600 none] }) ∧
    (runConvert convertDiagnosticsEnv "src" "pcl" "out" false devWorld).1 = none ∧
    Event.writeFile "out/main.pp" "" 0o600 none ∈
      eventsSince devWorld (runConvert convertDiagnosticsEnv "src" "pcl" "out" false devWorld).2 ∧
    projectGenerator convertDiagnosticsEnv ⟨1⟩ "src" (.plugin "dotnet") "out"
        ⟨"demo", ⟨"yaml"⟩⟩ ⟨1⟩ devWorld
      = (some (.diags [⟨.DiagError, "unknown resource type"⟩]), { devWorld with trace :=
          [.loadTemplate "src" ⟨⟨1⟩, [], none⟩,
           .convertTemplateIL ⟨1⟩ ⟨⟨1⟩⟩
             ⟨"", [⟨.DiagError, "unknown resource type"⟩], none⟩] }) :=
  ⟨rfl, rfl, rfl, by decide, rfl⟩

end Convert
